import Mathlib

/-
  Verification of the Varify structural-variant normalization pipeline.

  The development shallowly embeds the Python sources under src/varify:
  Python values appearing in VCF INFO maps and record-data dictionaries are
  modelled by the inductive type Value, Python dictionaries by association
  lists with replace-first update semantics, and Python exceptions
  (ValueError, TypeError, IndexError, AttributeError) by an Except monad.
  Python floats are modelled by rational numbers: every float literal the
  pipeline manipulates is a finite decimal, NaN never reaches the modelled
  code paths, and float string formatting is simplified where irrelevant.
-/

namespace Varify

/-- The Python exceptions raised or caught by the modelled code. -/
inductive PyErr where
  | valueError
  | typeError
  | indexError
  | attributeError
deriving DecidableEq, Repr

/-- A dynamically typed Python value as it appears in vcfpy INFO maps,
record-data dictionaries and pandas cells. Missing cells and Python None
are both modelled by vnone. -/
inductive Value where
  | vnone
  | vbool (b : Bool)
  | vint (n : Int)
  | vfloat (q : ℚ)
  | vstr (s : String)
  | vlist (vs : List Value)

/-- Python truthiness: None, False, 0, 0.0, empty string and empty list are
falsy, everything else is truthy. -/
def pyTruthy : Value → Bool
  | .vnone => false
  | .vbool b => b
  | .vint n => n != 0
  | .vfloat q => q != 0
  | .vstr s => s ≠ ""
  | .vlist vs => !vs.isEmpty

/-- True exactly when the value is Python None. -/
def Value.isNone : Value → Bool
  | .vnone => true
  | _ => false

/-- ASCII lower-casing, the fragment of str.lower() exercised by caller
names. -/
def lowerAscii (s : String) : String :=
  String.mk (s.toList.map (fun c =>
    if 65 ≤ c.toNat ∧ c.toNat ≤ 90 then Char.ofNat (c.toNat + 32) else c))

/-- ASCII upper-casing, the fragment of str.upper() exercised by the NaN
sentinel checks. -/
def upperAscii (s : String) : String :=
  String.mk (s.toList.map (fun c =>
    if 97 ≤ c.toNat ∧ c.toNat ≤ 122 then Char.ofNat (c.toNat - 32) else c))

/-- Does the first list occur as a prefix of the second? -/
def listStartsWith : List Char → List Char → Bool
  | [], _ => true
  | _ :: _, [] => false
  | a :: as, b :: bs => a = b && listStartsWith as bs

/-- Does the first list occur contiguously inside the second? -/
def listHasInside (n : List Char) : List Char → Bool
  | [] => listStartsWith n []
  | c :: t => listStartsWith n (c :: t) || listHasInside n t

/-- Python substring containment: strContains hay needle models the Python
expression needle in hay. -/
def strContains (hay needle : String) : Bool :=
  listHasInside needle.toList hay.toList

/-- Value of a digit string, or failure when empty or not all digits. -/
def natOfDigits? (cs : List Char) : Option Nat :=
  if cs = [] then none
  else if cs.all Char.isDigit then
    some (cs.foldl (fun a c => 10 * a + (c.toNat - 48)) 0)
  else none

/-- Strip leading and trailing spaces from a character list. -/
def stripSpaces (cs : List Char) : List Char :=
  ((cs.dropWhile (· = ' ')).reverse.dropWhile (· = ' ')).reverse

/-- Python int(s) on a string: optional surrounding spaces, optional sign,
one or more decimal digits; anything else raises ValueError. Modelled as an
Option, the failure standing for ValueError. -/
def parseIntStr? (s : String) : Option Int :=
  match stripSpaces s.toList with
  | '-' :: rest => (natOfDigits? rest).map (fun n => -(n : Int))
  | '+' :: rest => (natOfDigits? rest).map (fun n => (n : Int))
  | cs => (natOfDigits? cs).map (fun n => (n : Int))

/-- Python float(s) on a string: optional surrounding spaces, optional sign,
a finite decimal literal such as 7, 5.0 or .25; exponents and the special
words inf and nan are outside the modelled fragment. -/
def parseFloatStr? (s : String) : Option ℚ :=
  let body : List Char → Option ℚ := fun cs =>
    let ip := cs.takeWhile Char.isDigit
    let rest := cs.dropWhile Char.isDigit
    let ipVal : ℚ := (ip.foldl (fun a c => 10 * a + (c.toNat - 48)) 0 : Nat)
    match rest with
    | [] => if ip = [] then none else some ipVal
    | '.' :: fp =>
      if fp.all Char.isDigit ∧ (ip ≠ [] ∨ fp ≠ []) then
        some (ipVal + (fp.foldl (fun a c => 10 * a + (c.toNat - 48)) 0 : Nat) / (10 : ℚ) ^ fp.length)
      else none
    | _ => none
  match stripSpaces s.toList with
  | '-' :: rest => (body rest).map (fun q => -q)
  | '+' :: rest => body rest
  | cs => body cs

/-- Python int() truncation of a float toward zero. -/
def pyTrunc (q : ℚ) : Int :=
  q.num.tdiv q.den

/-- Python int(v): identity on ints, truncation on floats, strict decimal
parse on strings (ValueError on failure), 0/1 on bools, TypeError on None
and lists. -/
def pyInt : Value → Except PyErr Int
  | .vbool b => .ok (if b then 1 else 0)
  | .vint n => .ok n
  | .vfloat q => .ok (pyTrunc q)
  | .vstr s =>
    match parseIntStr? s with
    | some n => .ok n
    | none => .error .valueError
  | .vnone => .error .typeError
  | .vlist _ => .error .typeError

/-- Python float(v): ints and floats convert, strings parse as finite
decimals (ValueError on failure), bools convert, None and lists raise
TypeError. -/
def pyFloat : Value → Except PyErr ℚ
  | .vbool b => .ok (if b then 1 else 0)
  | .vint n => .ok (n : ℚ)
  | .vfloat q => .ok q
  | .vstr s =>
    match parseFloatStr? s with
    | some q => .ok q
    | none => .error .valueError
  | .vnone => .error .typeError
  | .vlist _ => .error .typeError

/-- Python str(v). Numeric and list formatting is simplified (floats print
as fractions, lists without quotes); the pipeline only ever applies str to
strings and small ints where this is exact. -/
def pyStr : Value → String
  | .vnone => "None"
  | .vbool b => if b then "True" else "False"
  | .vint n => toString n
  | .vfloat q => toString q
  | .vstr s => s
  | .vlist vs =>
    "[" ++ String.intercalate ", " (vs.map (fun v =>
      match v with
      | .vstr s => s
      | .vint n => toString n
      | .vbool b => if b then "True" else "False"
      | .vnone => "None"
      | .vfloat q => toString q
      | .vlist _ => "...")) ++ "]"

/-! ## Python dictionaries

INFO maps and record-data dictionaries are association lists. Updating an
existing key replaces its value in place (insertion order preserved, as in
Python); a new key is appended. -/

/-- A Python dict with string keys, as used for INFO maps and record data. -/
abbrev Dict : Type := List (String × Value)

/-- First-match lookup; with distinct keys this is Python dict access. -/
def Dict.get? : Dict → String → Option Value
  | [], _ => none
  | (k', v') :: t, k => if k' = k then some v' else Dict.get? t k

/-- Python d.get(k): None when the key is absent. -/
def Dict.getV (d : Dict) (k : String) : Value :=
  (d.get? k).getD .vnone

/-- Python d.get(k, default). -/
def Dict.getVD (d : Dict) (k : String) (dflt : Value) : Value :=
  (d.get? k).getD dflt

/-- Python k in d. -/
def Dict.hasKey (d : Dict) (k : String) : Bool :=
  (d.get? k).isSome

/-- Python d[k] = v: replace the first binding of k, else append. -/
def Dict.set : Dict → String → Value → Dict
  | [], k, v => [(k, v)]
  | (k', v') :: t, k, v =>
    if k' = k then (k', v) :: t else (k', v') :: Dict.set t k v

/-- The keys of the dictionary, in order. -/
def Dict.keys (d : Dict) : List String :=
  (d : List (String × Value)).map Prod.fst

/-- Python d.update(other): set every binding of other into d, in order. -/
def Dict.update (d other : Dict) : Dict :=
  (other : List (String × Value)).foldl (fun acc kv => acc.set kv.1 kv.2) d

/-- Python dict(d): copy d binding by binding into a fresh dict. -/
def dictCopy (d : Dict) : Dict :=
  Dict.update ∅ d

/-- Well-formedness of a dictionary produced by Python: its keys are
pairwise distinct. -/
def Dict.WF (d : Dict) : Prop :=
  d.keys.Nodup

theorem Dict.keys_nil : Dict.keys ([] : List (String × Value)) = [] := rfl

theorem Dict.keys_cons (hd : String × Value) (t : List (String × Value)) :
    Dict.keys (hd :: t) = hd.1 :: Dict.keys t := rfl

theorem Dict.get?_set_self (d : Dict) (k : String) (v : Value) :
    (d.set k v).get? k = some v := by
  induction d with
  | nil => simp [Dict.set, Dict.get?]
  | cons hd t ih =>
    by_cases h : hd.1 = k <;> simp [Dict.set, Dict.get?, h, ih]

theorem Dict.get?_set_ne (d : Dict) (k k' : String) (v : Value) (h : k ≠ k') :
    (d.set k v).get? k' = d.get? k' := by
  induction d with
  | nil => simp [Dict.set, Dict.get?, h]
  | cons hd t ih =>
    by_cases hk : hd.1 = k
    · subst hk
      simp [Dict.set, Dict.get?, h]
    · by_cases hk' : hd.1 = k' <;>
        simp [Dict.set, Dict.get?, hk, hk', Ne.symm h, ih]

theorem Dict.keys_set_of_mem (d : Dict) (k : String) (v : Value)
    (h : k ∈ d.keys) : (d.set k v).keys = d.keys := by
  induction d with
  | nil => simp [Dict.keys_nil] at h
  | cons hd t ih =>
    by_cases hk : hd.1 = k
    · simp [Dict.set, Dict.keys_cons, hk]
    · rw [Dict.keys_cons] at h
      rcases List.mem_cons.mp h with h | h
      · exact absurd h.symm hk
      · simp only [Dict.set, hk, if_false, Dict.keys_cons, ih h]

theorem Dict.keys_set_of_not_mem (d : Dict) (k : String) (v : Value)
    (h : k ∉ d.keys) : (d.set k v).keys = d.keys ++ [k] := by
  induction d with
  | nil => simp [Dict.set, Dict.keys]
  | cons hd t ih =>
    rw [Dict.keys_cons] at h
    have h1 : hd.1 ≠ k := fun e => h (e ▸ List.mem_cons_self _ _)
    have h2 : k ∉ Dict.keys t := fun m => h (List.mem_cons_of_mem _ m)
    simp only [Dict.set, h1, if_false, Dict.keys_cons, ih h2, List.cons_append]

theorem Dict.wf_set (d : Dict) (k : String) (v : Value) (h : d.WF) :
    (d.set k v).WF := by
  by_cases hm : k ∈ d.keys
  · unfold Dict.WF
    rw [Dict.keys_set_of_mem d k v hm]
    exact h
  · unfold Dict.WF
    rw [Dict.keys_set_of_not_mem d k v hm]
    simpa [List.nodup_append] using ⟨h, hm⟩

theorem Dict.wf_empty : Dict.WF ∅ := by
  simp [Dict.WF, Dict.keys, EmptyCollection.emptyCollection]

theorem Dict.update_cons (d : Dict) (hd : String × Value)
    (t : List (String × Value)) :
    Dict.update d (hd :: t) = Dict.update (d.set hd.1 hd.2) t := rfl

theorem Dict.wf_update (d other : Dict) (h : d.WF) : (d.update other).WF := by
  induction other generalizing d with
  | nil => exact h
  | cons hd t ih =>
    rw [Dict.update_cons]
    exact ih _ (Dict.wf_set d hd.1 hd.2 h)

theorem Dict.get?_update_of_not_mem (d other : Dict) (k : String)
    (h : k ∉ other.keys) : (d.update other).get? k = d.get? k := by
  induction other generalizing d with
  | nil => rfl
  | cons hd t ih =>
    rw [Dict.keys_cons] at h
    have h1 : k ≠ hd.1 := fun e => h (e ▸ List.mem_cons_self _ _)
    have h2 : k ∉ Dict.keys t := fun m => h (List.mem_cons_of_mem _ m)
    rw [Dict.update_cons, ih _ h2, Dict.get?_set_ne _ _ _ _ (Ne.symm h1)]

theorem Dict.get?_update_of_get? (d other : Dict) (k : String) (v : Value)
    (hwf : other.WF) (h : other.get? k = some v) :
    (d.update other).get? k = some v := by
  induction other generalizing d with
  | nil => simp [Dict.get?] at h
  | cons hd t ih =>
    rw [Dict.WF, Dict.keys_cons] at hwf
    have hwf' : Dict.WF t := (List.nodup_cons.mp hwf).2
    by_cases hk : hd.1 = k
    · have hkt : k ∉ Dict.keys t := hk ▸ (List.nodup_cons.mp hwf).1
      rw [Dict.get?] at h
      rw [if_pos hk] at h
      rw [Dict.update_cons, Dict.get?_update_of_not_mem _ _ _ hkt, hk,
          Dict.get?_set_self, h]
    · rw [Dict.get?] at h
      rw [if_neg hk] at h
      rw [Dict.update_cons]
      exact ih _ hwf' h

/-! ## General processor and caller base class -/

/-- GeneralProcessor.normalize_svlen (pipeline/general_processor.py, lines
20-41): None on None, None on an empty list, first element of a list, then
absolute value of the int conversion; ValueError, TypeError and IndexError
are all caught and yield None. -/
def generalNormalizeSvlen (svlen : Value) : Option Int :=
  match svlen with
  | .vnone => none
  | .vlist [] => none
  | .vlist (x :: _) =>
    match pyInt x with
    | .ok n => some |n|
    | .error _ => none
  | v =>
    match pyInt v with
    | .ok n => some |n|
    | .error _ => none

/-- AbstractVariantCaller.normalize_svlen (callers/base.py, lines 53-74):
like the general normalizer, but the except clause catches only ValueError
and TypeError, so indexing the first element of an empty list raises an
uncaught IndexError. pyInt itself only raises ValueError or TypeError, so
the catch-all on its error matches the except clause of the source. -/
def baseNormalizeSvlen (svlen : Value) : Except PyErr (Option Int) :=
  match svlen with
  | .vnone => .ok none
  | .vlist [] => .error .indexError
  | .vlist (x :: _) =>
    match pyInt x with
    | .ok n => .ok (some |n|)
    | .error _ => .ok none
  | v =>
    match pyInt v with
    | .ok n => .ok (some |n|)
    | .error _ => .ok none

/-- Python a or b. -/
def pyOr (a b : Value) : Value :=
  if pyTruthy a then a else b

/-- AbstractVariantCaller.extract_primary_caller (callers/base.py, lines
76-91): info.get("EUK_CALLER") or info.get("CALLER") or None. -/
def baseExtractPrimaryCaller (info : Dict) (_idValue : Value) : Value :=
  pyOr (info.getV "EUK_CALLER") (pyOr (info.getV "CALLER") .vnone)

/-! ## Confidence-interval computation per caller -/

/-- A confidence interval stored back into record data: a two-element list
of ints, or None. -/
def ciToValue : Option (Int × Int) → Value
  | none => .vnone
  | some (a, b) => .vlist [.vint a, .vint b]

/-- The guarded direct CIPOS/CIEND passthrough of generic.py (lines 50-64):
a two-element list converts elementwise with int(), ValueError and
TypeError caught, any failure or shape mismatch yielding None. -/
def genericCIField (info : Dict) (key : String) : Option (Int × Int) :=
  if info.hasKey key then
    match info.getV key with
    | .vlist (a :: b :: _) =>
      match pyInt a, pyInt b with
      | .ok x, .ok y => some (x, y)
      | _, _ => none
    | _ => none
  else none

/-- GenericVariantCaller.calculate_confidence_intervals (generic.py, lines
33-66). -/
def genericCCI (info : Dict) (_pos : Int) :
    Except PyErr (Option (Int × Int) × Option (Int × Int)) :=
  .ok (genericCIField info "CIPOS", genericCIField info "CIEND")

/-- The unguarded direct CIPOS/CIEND passthrough shared by sniffles.py,
tiddit.py, dysgu.py and cutesv.py: identical to the generic passthrough
except that there is no try/except, so int() conversion failures
propagate. -/
def directCIField (info : Dict) (key : String) :
    Except PyErr (Option (Int × Int)) :=
  if info.hasKey key then
    match info.getV key with
    | .vlist (a :: b :: _) => do
      let x ← pyInt a
      let y ← pyInt b
      pure (some (x, y))
    | _ => pure none
  else pure none

/-- The idiom x = x[0] applied when x is a list, used by the STD and 95
branches; an empty list raises IndexError outside any try block. -/
def scalarOrHead : Value → Except PyErr Value
  | .vlist [] => .error .indexError
  | .vlist (x :: _) => .ok x
  | v => .ok v

/-- The CIPOS_STD branch of sniffles.py (lines 82-93): cipos becomes the
truncated interval position plus or minus two standard deviations; a float
conversion failure (ValueError or TypeError) is caught and keeps the
earlier value, while the head of an empty list raises IndexError. -/
def snifflesCiposStd (info : Dict) (pos : Int) (dflt : Option (Int × Int)) :
    Except PyErr (Option (Int × Int)) :=
  if info.hasKey "CIPOS_STD" then do
    let std ← scalarOrHead (info.getV "CIPOS_STD")
    match pyFloat std with
    | .ok q =>
      pure (some (pyTrunc ((pos : ℚ) - 2 * q), pyTrunc ((pos : ℚ) + 2 * q)))
    | .error _ => pure dflt
  else pure dflt

/-- The CIEND_STD branch of sniffles.py (lines 95-107): like the CIPOS_STD
branch but centered on float(info.get("END", 0)), whose conversion is
inside the same try block. -/
def snifflesCiendStd (info : Dict) (dflt : Option (Int × Int)) :
    Except PyErr (Option (Int × Int)) :=
  if info.hasKey "CIEND_STD" then do
    let std ← scalarOrHead (info.getV "CIEND_STD")
    match pyFloat (info.getVD "END" (.vint 0)), pyFloat std with
    | .ok e, .ok q =>
      pure (some (pyTrunc (e - 2 * q), pyTrunc (e + 2 * q)))
    | _, _ => pure dflt
  else pure dflt

/-- SnifflesVariantCaller.calculate_confidence_intervals (sniffles.py,
lines 54-109): direct CIPOS/CIEND passthrough (unguarded), then the
CIPOS_STD and CIEND_STD branches above. -/
def snifflesCCI (info : Dict) (pos : Int) :
    Except PyErr (Option (Int × Int) × Option (Int × Int)) := do
  let cipos0 ← directCIField info "CIPOS"
  let ciend0 ← directCIField info "CIEND"
  let cipos ← snifflesCiposStd info pos cipos0
  let ciend ← snifflesCiendStd info ciend0
  pure (cipos, ciend)

/-- The CIPOS_REG/CIEND_REG branch of tiddit.py (lines 81-107): a comma
string or a two-element list, all conversion failures caught, keeping the
earlier passthrough value. -/
def tidditRegField (info : Dict) (key : String) (dflt : Option (Int × Int)) :
    Option (Int × Int) :=
  if info.hasKey key then
    match info.getV key with
    | .vstr s =>
      match s.splitOn "," with
      | [a, b] =>
        match pyInt (.vstr a), pyInt (.vstr b) with
        | .ok x, .ok y => some (x, y)
        | _, _ => dflt
      | _ => dflt
    | .vlist (a :: b :: _) =>
      match pyInt a, pyInt b with
      | .ok x, .ok y => some (x, y)
      | _, _ => dflt
    | _ => dflt
  else dflt

/-- TIDDITVariantCaller.calculate_confidence_intervals (tiddit.py, lines
54-109). -/
def tidditCCI (info : Dict) (_pos : Int) :
    Except PyErr (Option (Int × Int) × Option (Int × Int)) := do
  let cipos0 ← directCIField info "CIPOS"
  let ciend0 ← directCIField info "CIEND"
  pure (tidditRegField info "CIPOS_REG" cipos0,
        tidditRegField info "CIEND_REG" ciend0)

/-- DysguVariantCaller.calculate_confidence_intervals (dysgu.py, lines
62-111): direct passthrough (unguarded), then CIPOS95/CIEND95 half-width
intervals with Python floor division by 2; int conversion failures in the
95 branches are caught, but the head of an empty list raises IndexError. -/
def dysguCCI (info : Dict) (pos : Int) :
    Except PyErr (Option (Int × Int) × Option (Int × Int)) := do
  let cipos0 ← directCIField info "CIPOS"
  let ciend0 ← directCIField info "CIEND"
  let cipos ←
    if info.hasKey "CIPOS95" then do
      let size ← scalarOrHead (info.getV "CIPOS95")
      match pyInt size with
      | .ok n => pure (some (pos - Int.fdiv n 2, pos + Int.fdiv n 2))
      | .error _ => pure cipos0
    else pure cipos0
  let ciend ←
    if info.hasKey "CIEND95" then do
      let size ← scalarOrHead (info.getV "CIEND95")
      match pyInt (info.getVD "END" (.vint 0)), pyInt size with
      | .ok e, .ok n => pure (some (e - Int.fdiv n 2, e + Int.fdiv n 2))
      | _, _ => pure ciend0
    else pure ciend0
  pure (cipos, ciend)

/-- CuteSVVariantCaller.calculate_confidence_intervals (cutesv.py, lines
72-99): only the unguarded direct passthrough. -/
def cutesvCCI (info : Dict) (_pos : Int) :
    Except PyErr (Option (Int × Int) × Option (Int × Int)) := do
  let cipos0 ← directCIField info "CIPOS"
  let ciend0 ← directCIField info "CIEND"
  pure (cipos0, ciend0)

/-- GridssVariantCaller inherits the generic confidence-interval logic
(gridss.py subclasses GenericVariantCaller without overriding it). -/
def gridssCCI (info : Dict) (pos : Int) :
    Except PyErr (Option (Int × Int) × Option (Int × Int)) :=
  genericCCI info pos

/-! ## Caller-specific INFO parsing -/

/-- GenericVariantCaller.parse_info_fields (generic.py, lines 20-31):
dict(info), a verbatim copy. -/
def genericParseInfoFields (info : Dict) : Except PyErr Dict :=
  .ok (dictCopy info)

/-- GridssVariantCaller.parse_info_fields (gridss.py, lines 20-38): the
generic copy, then SVTYPE is set to BND when both SVTYPE and MATEID are
absent or None. -/
def gridssParseInfoFields (info : Dict) : Except PyErr Dict :=
  let fields := dictCopy info
  if (fields.getV "SVTYPE").isNone && (fields.getV "MATEID").isNone then
    .ok (fields.set "SVTYPE" (.vstr "BND"))
  else .ok fields

/-- The SUPPORT block of sniffles.py (lines 42-43): parsed["SUPPORT"] =
int(info["SUPPORT"]) if info["SUPPORT"] else None, the int() unguarded. -/
def snifflesSupportStep (info parsed : Dict) : Except PyErr Dict :=
  if info.hasKey "SUPPORT" then
    let v := info.getV "SUPPORT"
    if pyTruthy v then do
      let n ← pyInt v
      pure (parsed.set "SUPPORT" (.vint n))
    else pure (parsed.set "SUPPORT" .vnone)
  else pure parsed

/-- The RNAMES block shared by sniffles.py (lines 45-50) and cutesv.py
(lines 54-59): NUM_RNAMES is the list length or the comma-split length of
a string. -/
def rnamesStep (info parsed : Dict) : Dict :=
  if info.hasKey "RNAMES" then
    match info.getV "RNAMES" with
    | .vlist vs => parsed.set "NUM_RNAMES" (.vint vs.length)
    | .vstr s => parsed.set "NUM_RNAMES" (.vint (s.splitOn ",").length)
    | _ => parsed
  else parsed

/-- SnifflesVariantCaller.parse_info_fields (sniffles.py, lines 23-52):
copies every INFO binding, then the SUPPORT and RNAMES blocks. -/
def snifflesParseInfoFields (info : Dict) : Except PyErr Dict := do
  let parsed ← snifflesSupportStep info (dictCopy info)
  pure (rnamesStep info parsed)

/-- The idiom int(x) if x else None with the int() unguarded, used for the
CILEN list elements of tiddit.py (lines 44-45). -/
def truthyIntValue (x : Value) : Except PyErr Value :=
  if pyTruthy x then do
    let n ← pyInt x
    pure (Value.vint n)
  else pure Value.vnone

/-- The two-element branch of the CILEN block (tiddit.py, lines 43-45). -/
def tidditCilenPair (parsed : Dict) (a b : Value) : Except PyErr Dict := do
  let vmin ← truthyIntValue a
  let vmax ← truthyIntValue b
  pure ((parsed.set "CILEN_MIN" vmin).set "CILEN_MAX" vmax)

/-- The scalar branch of the CILEN block (tiddit.py, lines 46-47): a truthy
value is re-typed with an unguarded int(), so a one-element list raises
TypeError. -/
def tidditCilenScalar (parsed : Dict) (v : Value) : Except PyErr Dict :=
  if pyTruthy v then do
    let n ← pyInt v
    pure (parsed.set "CILEN" (.vint n))
  else pure parsed

/-- The CILEN block of tiddit.py (lines 41-47). -/
def tidditCilenStep (info parsed : Dict) : Except PyErr Dict :=
  if info.hasKey "CILEN" then
    match info.getV "CILEN" with
    | .vlist (a :: b :: _) => tidditCilenPair parsed a b
    | v => tidditCilenScalar parsed v
  else pure parsed

/-- TIDDITVariantCaller.parse_info_fields (tiddit.py, lines 22-52): copies
every INFO binding, the CILEN block, then stringifies OA. -/
def tidditParseInfoFields (info : Dict) : Except PyErr Dict := do
  let parsed ← tidditCilenStep info (dictCopy info)
  pure (if info.hasKey "OA" then
          parsed.set "OA" (.vstr (pyStr (info.getV "OA")))
        else parsed)

/-- The guarded numeric re-typing idiom of dysgu.py and cutesv.py: take the
head when the value is a list (IndexError on an empty list is uncaught),
then parsed[key] = conv(x) if x else None with ValueError and TypeError
caught and mapped to None. -/
def guardedRetype (parsed : Dict) (key : String) (v : Value)
    (conv : Value → Except PyErr Value) : Except PyErr Dict := do
  let x ← scalarOrHead v
  if pyTruthy x then
    match conv x with
    | .ok w => pure (parsed.set key w)
    | .error _ => pure (parsed.set key .vnone)
  else pure (parsed.set key .vnone)

/-- The guarded re-typing applied only when the key is present. -/
def condRetype (info parsed : Dict) (key : String)
    (conv : Value → Except PyErr Value) : Except PyErr Dict :=
  if info.hasKey key then guardedRetype parsed key (info.getV key) conv
  else pure parsed

/-- int() re-typing for the guarded idiom. -/
def intConv : Value → Except PyErr Value :=
  fun x => (pyInt x).map Value.vint

/-- float() re-typing for the guarded idiom. -/
def floatConv : Value → Except PyErr Value :=
  fun x => (pyFloat x).map Value.vfloat

/-- DysguVariantCaller.parse_info_fields (dysgu.py, lines 22-60): copies
every INFO binding, then re-types NMP as int and MAPQ as float with the
guarded idiom. -/
def dysguParseInfoFields (info : Dict) : Except PyErr Dict := do
  let parsed ← condRetype info (dictCopy info) "NMP" intConv
  condRetype info parsed "MAPQ" floatConv

/-- CuteSVVariantCaller.parse_info_fields (cutesv.py, lines 22-70): copies
every INFO binding, re-types RE as int and AF as float with the guarded
idiom, stringifies STRAND and derives NUM_RNAMES from RNAMES. -/
def cutesvParseInfoFields (info : Dict) : Except PyErr Dict := do
  let parsed ← condRetype info (dictCopy info) "RE" intConv
  let parsed :=
    if info.hasKey "STRAND" then
      parsed.set "STRAND" (.vstr (pyStr (info.getV "STRAND")))
    else parsed
  condRetype info (rnamesStep info parsed) "AF" floatConv

/-! ## Caller dispatch and the caller processor -/

/-- The closed set of caller strategies (vcf_parser.py imports exactly
these six). -/
inductive CallerKind where
  | generic
  | sniffles
  | tiddit
  | dysgu
  | cutesv
  | gridss
deriving DecidableEq, Repr

/-- parse_info_fields dispatched on the selected strategy. -/
def parseInfoFields : CallerKind → Dict → Except PyErr Dict
  | .generic => genericParseInfoFields
  | .sniffles => snifflesParseInfoFields
  | .tiddit => tidditParseInfoFields
  | .dysgu => dysguParseInfoFields
  | .cutesv => cutesvParseInfoFields
  | .gridss => gridssParseInfoFields

/-- calculate_confidence_intervals dispatched on the selected strategy. -/
def calcCI : CallerKind → Dict → Int →
    Except PyErr (Option (Int × Int) × Option (Int × Int))
  | .generic => genericCCI
  | .sniffles => snifflesCCI
  | .tiddit => tidditCCI
  | .dysgu => dysguCCI
  | .cutesv => cutesvCCI
  | .gridss => gridssCCI

/-- _get_caller_for_variant (vcf_parser.py, lines 44-73): a falsy caller
name selects Generic; otherwise the lower-cased name is matched as a
substring against the five named callers in priority order, first match
winning, no match selecting Generic. Calling .lower() on a truthy
non-string raises AttributeError. -/
def getCallerForVariant (primaryCaller : Value) : Except PyErr CallerKind :=
  if ¬ pyTruthy primaryCaller then .ok .generic
  else
    match primaryCaller with
    | .vstr s =>
      let l := lowerAscii s
      if strContains l "sniffles" then .ok .sniffles
      else if strContains l "tiddit" then .ok .tiddit
      else if strContains l "dysgu" then .ok .dysgu
      else if strContains l "cutesv" then .ok .cutesv
      else if strContains l "gridss" then .ok .gridss
      else .ok .generic
    | _ => .error .attributeError

/-- CallerProcessor.process_record (pipeline/caller_processor.py, lines
31-65): copy the base data, merge the caller-parsed INFO dict over it (this
re-inserts raw INFO values, including SVLEN), store the confidence
intervals, overwrite SVLEN only when the caller normalizer returns a value,
and set PRIMARY_CALLER only when the extracted name is truthy. Every
concrete caller uses the base-class normalize_svlen and
extract_primary_caller. -/
def processRecord (k : CallerKind) (info : Dict) (pos : Int)
    (baseData : Dict) : Except PyErr Dict := do
  let recordData := baseData
  let parsedInfo ← parseInfoFields k info
  let recordData := recordData.update parsedInfo
  let ci ← calcCI k info pos
  let recordData := recordData.set "CIPOS" (ciToValue ci.1)
  let recordData := recordData.set "CIEND" (ciToValue ci.2)
  let svlenNormalized ← baseNormalizeSvlen (info.getV "SVLEN")
  let recordData :=
    match svlenNormalized with
    | some n => recordData.set "SVLEN" (.vint n)
    | none => recordData
  let primaryCaller := baseExtractPrimaryCaller info (recordData.getV "ID")
  let recordData :=
    if pyTruthy primaryCaller then
      recordData.set "PRIMARY_CALLER" primaryCaller
    else recordData
  pure recordData

/-! ## VCF records, merge-convention handlers and the per-record pipeline -/

/-- One sample call of a record: its FORMAT-keyed data dictionary. -/
structure Call where
  data : Dict

/-- A vcfpy record as consumed by the pipeline: the ALT entries are kept
already serialized, ID models record.ID[0] if record.ID else None. -/
structure Record where
  chrom : String
  pos : Int
  id : Option String
  ref : String
  alt : List String
  qual : Value
  filter : List String
  info : Dict
  format : List String
  calls : List Call

/-- GeneralProcessor.extract_core_fields (general_processor.py, lines
44-67). -/
def extractCoreFields (r : Record) : Dict :=
  [("CHROM", .vstr r.chrom),
   ("POSITION", .vint r.pos),
   ("ID", match r.id with | some s => .vstr s | none => .vnone),
   ("REF", .vstr r.ref),
   ("ALT", if r.alt.isEmpty then .vnone
           else .vstr (String.intercalate "," r.alt)),
   ("QUAL", r.qual),
   ("FILTER", if r.filter.isEmpty then .vnone
              else .vstr (String.intercalate ";" r.filter))]

/-- GeneralProcessor.extract_basic_info_fields (general_processor.py, lines
69-91): the IMPRECISE/PRECISE booleans are presence-based. -/
def extractBasicInfoFields (info : Dict) : Dict :=
  [("SVTYPE", info.getV "SVTYPE"),
   ("SVLEN", info.getV "SVLEN"),
   ("END", info.getV "END"),
   ("IMPRECISE", .vbool (info.hasKey "IMPRECISE"
      && !(info.getV "IMPRECISE").isNone)),
   ("PRECISE", .vbool (info.hasKey "PRECISE"
      && !(info.getV "PRECISE").isNone)),
   ("CHROM2", info.getV "CHR2"),
   ("MATE_ID", info.getV "MATEID"),
   ("HOMLEN", info.getV "HOMLEN"),
   ("HOMSEQ", info.getV "HOMSEQ")]

/-- Ascending comparison of strings by code points, as Python compares
strings. -/
def charListLt : List Char → List Char → Bool
  | [], [] => false
  | [], _ :: _ => true
  | _ :: _, [] => false
  | a :: as, b :: bs => if a = b then charListLt as bs else decide (a.toNat < b.toNat)

/-- Python string less-than. -/
def strLtB (a b : String) : Bool :=
  charListLt a.toList b.toList

/-- Insert a string into an ascending list, keeping it ascending. -/
def insertSorted (s : String) : List String → List String
  | [] => [s]
  | t :: ts => if strLtB t s then t :: insertSorted s ts else s :: t :: ts

/-- Python sorted() on a list of strings. -/
def sortStrs (l : List String) : List String :=
  l.foldr insertSorted []

/-- Python sep.join(sorted(set(l))): sorted, deduplicated, joined. -/
def sortedSetJoin (sep : String) (l : List String) : String :=
  String.intercalate sep (sortStrs l.dedup)

/-- The NaN sentinel test value.upper() in ("NULL", "NAN", "NA"). -/
def nanSentinel (s : String) : Bool :=
  upperAscii s = "NULL" || upperAscii s = "NAN" || upperAscii s = "NA"

/-- The shared per-sample value normalization of vcf_types/base.py (lines
88-104) and survivor.py (lines 140-154): a list joins with commas (empty
becoming None), then None and NaN-sentinel strings become a dot, everything
else its str(). Model floats carry no NaN, so the float-NaN test is always
false. -/
def sampleValueToStr (v : Option Value) : String :=
  match v with
  | none => "."
  | some .vnone => "."
  | some (.vlist vs) =>
    if vs.isEmpty then "."
    else
      let s := String.intercalate "," (vs.map pyStr)
      if nanSentinel s then "." else s
  | some (.vstr s) => if nanSentinel s then "." else s
  | some v => pyStr v

/-- VcfTypeHandler.process_sample_fields, the BCF default (vcf_types/
base.py, lines 62-118): for every FORMAT field except ID, the values of the
first len(samples) calls are normalized and joined with a pipe separator,
collapsed to a single dot when all are dots; missing required fields map to
a dash, keyed on absence from the FORMAT list. -/
def bcfSampleValue (r : Record) (samples : List String) (field : String) :
    Value :=
  let fieldValues := (r.calls.take samples.length).map
    (fun c => sampleValueToStr (c.data.get? field))
  .vstr (if fieldValues.all (· = ".") then "."
         else String.intercalate " | " fieldValues)

/-- The per-field loop shared by both sample-field handlers: every FORMAT
field except ID is stored through the given per-field value function. -/
def formatFold (format : List String) (g : String → Value) : Dict :=
  format.foldl (fun (acc : Dict) field =>
    if field = "ID" then acc else acc.set field (g field)) ∅

/-- Continuation of bcfSampleValue: the full BCF handler body. -/
def bcfProcessSampleFields (r : Record) (samples : List String) : Dict :=
  let d := formatFold r.format (bcfSampleValue r samples)
  let d := if "GT" ∈ r.format then d else d.set "GT" (.vstr "-")
  let d := if "PR" ∈ r.format then d else d.set "PR" (.vstr "-")
  let d := if "SR" ∈ r.format then d else d.set "SR" (.vstr "-")
  if "GQ" ∈ r.format then d else d.set "GQ" (.vstr "-")

/-- The first index whose character is the digit one, else zero: the
active-sample scan shared by survivor.py (lines 124-128) and writer.py
(lines 301-307). -/
def firstOneIdx : List Char → Nat → Nat
  | [], _ => 0
  | c :: t, i => if c = '1' then i else firstOneIdx t (i + 1)

/-- The active sample index derived from a support-vector string. -/
def activeSampleIdx (sv : String) : Nat :=
  firstOneIdx sv.toList 0

/-- The active sample selected by SURVIVORHandler.process_sample_fields:
the first set bit of str(record.INFO.get("SUPP_VEC", "")), index zero when
there is none. -/
def survivorActiveSampleIdx (info : Dict) : Nat :=
  activeSampleIdx (pyStr (info.getVD "SUPP_VEC" (.vstr "")))

/-- SURVIVORHandler.process_sample_fields (survivor.py, lines 89-162):
flattens the FORMAT values of the single active sample; required fields
missing from the extracted data map to a dash. -/
def survivorProcessSampleFields (r : Record) (_samples : List String) : Dict :=
  let idx := survivorActiveSampleIdx r.info
  let d :=
    match r.calls[idx]? with
    | none => (∅ : Dict)
    | some call =>
      formatFold r.format
        (fun field => .vstr (sampleValueToStr (call.data.get? field)))
  let d := if d.hasKey "GT" then d else d.set "GT" (.vstr "-")
  let d := if d.hasKey "PR" then d else d.set "PR" (.vstr "-")
  let d := if d.hasKey "SR" then d else d.set "SR" (.vstr "-")
  if d.hasKey "GQ" then d else d.set "GQ" (.vstr "-")

/-- SURVIVORHandler.extract_primary_caller (survivor.py, lines 18-33): the
token before the first underscore of a truthy ID containing an
underscore. -/
def survivorExtractPrimaryCaller (r : Record) : Value :=
  match r.id with
  | some s =>
    if s ≠ "" && strContains s "_" then .vstr ((s.splitOn "_").headD "")
    else .vnone
  | none => .vnone

/-- The per-call contribution to the SURVIVOR caller set (survivor.py,
lines 67-73): a call whose data has an ID containing an underscore
contributes the token before the first underscore. Python raises TypeError
when testing underscore membership on a non-string non-list ID value, and
AttributeError when splitting a list that contains an underscore
element. -/
def idCallerOfCall (c : Call) : Except PyErr (Option String) :=
  match c.data.get? "ID" with
  | none => .ok none
  | some (.vstr s) =>
    .ok (if strContains s "_" then some ((s.splitOn "_").headD "") else none)
  | some (.vlist vs) =>
    if vs.any (fun v => match v with | .vstr s => s = "_" | _ => false) then
      .error .attributeError
    else .ok none
  | some _ => .error .typeError

/-- SURVIVORHandler.extract_type_specific_fields (survivor.py, lines
35-77): SUPP_VEC, STRANDS and SVMETHOD, the SVTYPE override taken from the
second underscore-delimited ID token, and the SUPP_CALLERS shortcut built
from the per-sample ID fields, sorted, deduplicated and joined with a
comma and space. -/
def survivorCallers (calls : List Call) : Except PyErr (List String) :=
  calls.foldlM (fun acc c => do
      let x ← idCallerOfCall c
      pure (match x with | some s => acc ++ [s] | none => acc))
    ([] : List String)

/-- The literal SUPP_VEC/STRANDS/SVMETHOD field dict of survivor.py lines
54-58. -/
def survivorSvFields (info : Dict) : Dict :=
  [("SUPP_VEC", info.getV "SUPP_VEC"),
   ("STRANDS", info.getV "STRANDS"),
   ("SVMETHOD", info.getV "SVMETHOD")]

/-- Those base fields plus the SVTYPE override from the ID (survivor.py,
lines 60-64). -/
def survivorBaseFields (info : Dict) : Option String → Dict
  | some s =>
    if s ≠ "" && strContains s "_" then
      (survivorSvFields info).set "SVTYPE" (.vstr ((s.splitOn "_").getD 1 ""))
    else survivorSvFields info
  | none => survivorSvFields info

def survivorExtractTypeSpecific (info : Dict) (r : Record) :
    Except PyErr Dict := do
  let fields := survivorBaseFields info r.id
  let callers ← survivorCallers r.calls
  let callersSorted := sortStrs callers.dedup
  if callersSorted.isEmpty then pure fields
  else pure (fields.set "SUPP_CALLERS"
    (.vstr (String.intercalate ", " callersSorted)))

/-- The merge convention of a run: vcf_parser.py selects BCFHandler or
SURVIVORHandler once per file. -/
inductive HandlerKind where
  | bcf
  | survivor
deriving DecidableEq, Repr

/-- extract_primary_caller per handler (bcf.py line 29, survivor.py lines
18-33). -/
def handlerExtractPrimaryCaller : HandlerKind → Dict → Record → Value
  | .bcf => fun info _ => pyOr (info.getV "EUK_CALLER") (info.getV "CALLER")
  | .survivor => fun _ r => survivorExtractPrimaryCaller r

/-- extract_type_specific_fields per handler (bcf.py returns an empty
dict). -/
def handlerExtractTypeSpecific : HandlerKind → Dict → Record → Except PyErr Dict
  | .bcf => fun _ _ => .ok ∅
  | .survivor => fun info r => survivorExtractTypeSpecific info r

/-- process_sample_fields per handler. -/
def handlerProcessSampleFields : HandlerKind → Record → List String → Dict
  | .bcf => fun r samples => bcfProcessSampleFields r samples
  | .survivor => fun r samples => survivorProcessSampleFields r samples

/-- should_aggregate per handler. -/
def handlerShouldAggregate : HandlerKind → Bool
  | .bcf => true
  | .survivor => false

/-- An optional int stored into record data. -/
def optIntToValue : Option Int → Value
  | some n => .vint n
  | none => .vnone

/-- Stages 1 to 3 of parse_vcf (vcf_parser.py, lines 117-127): core
fields, unique_id, basic INFO fields, then the general SVLEN
normalization stored back over the raw SVLEN. -/
def pipelineBaseData (info : Dict) (idx : Nat) (r : Record) : Dict :=
  let core := extractCoreFields r
  let core := core.set "unique_id" (.vint idx)
  let core := core.update (extractBasicInfoFields info)
  core.set "SVLEN" (optIntToValue (generalNormalizeSvlen (core.getV "SVLEN")))

/-- The per-record stages 1 to 7 of parse_vcf (vcf_parser.py, lines
113-151): base data, primary-caller extraction, caller dispatch,
caller-specific processing, type-specific fields, the unconditional
PRIMARY_CALLER assignment, and the sample FORMAT fields. -/
def pipelineProcessRecord (h : HandlerKind) (samples : List String)
    (idx : Nat) (r : Record) : Except PyErr Dict := do
  let primaryCaller := handlerExtractPrimaryCaller h r.info r
  let caller ← getCallerForVariant primaryCaller
  let recordData ← processRecord caller r.info r.pos
    (pipelineBaseData r.info idx r)
  let typeSpecific ← handlerExtractTypeSpecific h r.info r
  let recordData := recordData.update typeSpecific
  let recordData := recordData.set "PRIMARY_CALLER" primaryCaller
  pure (recordData.update (handlerProcessSampleFields h r samples))

/-! ## Aggregator -/

/-- pd.notna on a dataset cell: a missing column or a None value is NA;
model floats carry no NaN. -/
def rowNotna (rd : Dict) (col : String) : Bool :=
  match rd.get? col with
  | none => false
  | some .vnone => false
  | some _ => true

/-- Aggregator.validate_and_filter (pipeline/aggregator.py, lines 66-87):
drop rows with NA SVTYPE counting them as excluded, then rows with NA SVLEN
counting them as invalid. -/
def validateAndFilter (rows : List Dict) : List Dict × Nat × Nat :=
  if rows.isEmpty then (rows, 0, 0)
  else
    let d1 := rows.filter (fun rd => rowNotna rd "SVTYPE")
    let excluded := rows.length - d1.length
    let d2 := d1.filter (fun rd => rowNotna rd "SVLEN")
    (d2, excluded, d1.length - d2.length)

/-- The pandas group key of a row for compute_supp_callers. Pipeline rows
always carry a string CHROM, an integer POSITION and a string or NA SVTYPE;
a row with any other shape is modelled as keyless, like the NaN-keyed rows
pandas drops from the grouping. -/
def rowKey (rd : Dict) : Option (String × Int × String) :=
  match rd.get? "CHROM", rd.get? "POSITION", rd.get? "SVTYPE" with
  | some (.vstr c), some (.vint p), some (.vstr t) => some (c, p, t)
  | _, _, _ => none

/-- The contribution of a row to the caller set of its group: the aggregation
lambda keeps str(val) for every val that is not None; a missing cell is the
float NaN, which is not None and prints as nan. -/
def primaryCallerStr (rd : Dict) : Option String :=
  match rd.get? "PRIMARY_CALLER" with
  | none => some "nan"
  | some .vnone => none
  | some v => some (pyStr v)

/-- All caller strings of the rows sharing a group key, in row order. -/
def groupCallers (rows : List Dict) (k : String × Int × String) :
    List String :=
  (rows.filter (fun rd => rowKey rd = some k)).filterMap primaryCallerStr

/-- Aggregator.compute_supp_callers (pipeline/aggregator.py, lines 17-45):
group by (CHROM, POSITION, SVTYPE), aggregate the non-null
PRIMARY_CALLER values into a sorted deduplicated comma-joined string, and
left-merge the result back onto every row; keyless rows receive NA. -/
def computeSuppCallers (rows : List Dict) : List Dict :=
  if rows.isEmpty then rows
  else rows.map (fun rd =>
    match rowKey rd with
    | none => rd.set "SUPP_CALLERS" .vnone
    | some k =>
      rd.set "SUPP_CALLERS" (.vstr (sortedSetJoin "," (groupCallers rows k))))

/-! ## Writer: header enrichment -/

/-- One INFO declaration line of a VCF header. -/
structure InfoLine where
  id : String
  number : String
  typ : String
  desc : String
deriving DecidableEq, Repr

/-- The header state the writer mutates: its INFO declaration lines. -/
structure Header where
  infoLines : List InfoLine
deriving DecidableEq, Repr

/-- header.info_ids(). -/
def Header.infoIds (h : Header) : List String :=
  h.infoLines.map InfoLine.id

/-- header.add_info_line(mapping): appends a declaration. -/
def Header.addInfoLine (h : Header) (l : InfoLine) : Header :=
  ⟨h.infoLines ++ [l]⟩

/-- The SUPP_CALLERS declaration added by the writer. -/
def suppCallersLine : InfoLine :=
  ⟨"SUPP_CALLERS", ".", "String",
   "Comma-separated list of supporting callers (computed)"⟩

/-- The PRIMARY_CALLER declaration added by the writer. -/
def primaryCallerLine : InfoLine :=
  ⟨"PRIMARY_CALLER", "1", "String", "Primary variant caller (computed)"⟩

/-- The NUM_CALLERS declaration added by the writer. -/
def numCallersLine : InfoLine :=
  ⟨"NUM_CALLERS", "1", "Integer",
   "Number of callers supporting this variant (computed)"⟩

/-- VcfWriter._add_computed_info_headers (pipeline/writer.py, lines
120-165): the existing ids are computed once, then each of the three
computed declarations is appended only when its id is not already
declared. -/
def addComputedInfoHeaders (h : Header) : Header :=
  let ids := h.infoIds
  let h := if "SUPP_CALLERS" ∈ ids then h else h.addInfoLine suppCallersLine
  let h := if "PRIMARY_CALLER" ∈ ids then h
           else h.addInfoLine primaryCallerLine
  if "NUM_CALLERS" ∈ ids then h else h.addInfoLine numCallersLine

/-! ## Writer: record enrichment -/

/-- pd.notna as used on a single dataset cell, under Python truthiness of
the result: None is NA, a scalar is not NA, a one-element list collapses to
its element, and a longer list makes the enclosing if raise ValueError
(ambiguous truth value of an array). -/
def pdNotnaStrict : Value → Except PyErr Bool
  | .vnone => .ok false
  | .vlist [x] => pdNotnaStrict x
  | .vlist _ => .error .valueError
  | _ => .ok true

/-- The converter column of WRITABLE_INFO_FIELDS (writer.py, lines
17-27). -/
inductive FieldConv where
  | toStr
  | toInt
  | toFlag
deriving DecidableEq, Repr

/-- WRITABLE_INFO_FIELDS: dataset column, VCF INFO tag, converter. -/
def writableInfoFields : List (String × String × FieldConv) :=
  [("SVTYPE", "SVTYPE", .toStr),
   ("SVLEN", "SVLEN", .toInt),
   ("END", "END", .toInt),
   ("CHROM2", "CHR2", .toStr),
   ("MATE_ID", "MATEID", .toStr),
   ("HOMLEN", "HOMLEN", .toInt),
   ("HOMSEQ", "HOMSEQ", .toStr),
   ("IMPRECISE", "IMPRECISE", .toFlag),
   ("PRECISE", "PRECISE", .toFlag)]

/-- Apply a converter; the flag converter maps a falsy value to None so it
is omitted rather than written. -/
def applyConv : FieldConv → Value → Except PyErr (Option Value)
  | .toStr, v => .ok (some (.vstr (pyStr v)))
  | .toInt, v => (pyInt v).map (fun n => some (.vint n))
  | .toFlag, v => .ok (if pyTruthy v then some (.vbool true) else none)

/-- Python s.strip("()"). -/
def stripParens (s : String) : String :=
  String.mk (((s.toList.dropWhile fun c => c = '(' || c = ')').reverse.dropWhile
    fun c => c = '(' || c = ')').reverse)

/-- VcfWriter._update_confidence_intervals for one field (writer.py, lines
211-237): skip an absent, None or NA value (the NA test failure on a list
being caught and ignored), parse a string of the form (a, b) with an
unguarded int() per piece, and write any other value back verbatim. -/
def updateCIField (info row : Dict) (ci : String) : Except PyErr Dict :=
  match row.get? ci with
  | none => .ok info
  | some .vnone => .ok info
  | some v =>
    let isna := match pdNotnaStrict v with
      | .ok b => !b
      | .error _ => false
    if isna then .ok info
    else
      match v with
      | .vstr s => do
        let parts := (stripParens s).splitOn ","
        let ints ← parts.mapM (fun p => pyInt (.vstr p.trim))
        pure (info.set ci (.vlist (ints.map Value.vint)))
      | v => .ok (info.set ci v)

/-- VcfWriter._update_caller_fields (writer.py, lines 239-254): the
pd.notna calls here are unguarded, SUPP_CALLERS is written as the comma
split, NUM_CALLERS as its count of non-blank tokens, PRIMARY_CALLER as a
plain string. -/
def updateCallerFields (info row : Dict) : Except PyErr Dict := do
  let info ←
    if row.hasKey "SUPP_CALLERS" then do
      let v := row.getV "SUPP_CALLERS"
      let b ← pdNotnaStrict v
      if b then
        let s := pyStr v
        let parts := s.splitOn ","
        let info := info.set "SUPP_CALLERS" (.vlist (parts.map Value.vstr))
        pure (info.set "NUM_CALLERS"
          (.vint ((parts.filter (fun c => c.trim ≠ "")).length)))
      else pure info
    else pure info
  if row.hasKey "PRIMARY_CALLER" then do
    let v := row.getV "PRIMARY_CALLER"
    let b ← pdNotnaStrict v
    if b then pure (info.set "PRIMARY_CALLER" (.vstr (pyStr v)))
    else pure info
  else pure info

/-- The FORMAT ids rewritten by the writer (writer.py, lines 275-297; GQ is
listed twice in the source). -/
def writerFormatFields : List String :=
  ["GT", "PSV", "LN", "DR", "ST", "QV", "TY", "RAL", "AAL", "CO", "PR",
   "SR", "GQ", "AF", "AD", "DP", "GQ", "LO", "LR", "PE", "PL"]

/-- The target sample of VcfWriter._update_format_fields (writer.py, lines
299-307): sample 0 for a single-sample record, else the first set bit of
str(record.INFO.get("SUPP_VEC", "")), defaulting to 0. -/
def writerTargetSampleIdx (numSamples : Nat) (info : Dict) : Nat :=
  if 1 < numSamples then
    activeSampleIdx (pyStr (info.getVD "SUPP_VEC" (.vstr "")))
  else 0

/-- Replace None elements of a rewritten FORMAT list by a dot (writer.py,
lines 339-343). -/
def normalizeListElems (vs : List Value) : List Value :=
  vs.map (fun v => match v with | .vnone => .vstr "." | v => v)

/-- Store a value into one FORMAT field of one call. -/
def setCallData (calls : List Call) (i : Nat) (field : String) (v : Value) :
    List Call :=
  match calls[i]? with
  | none => calls
  | some c => calls.set i ⟨c.data.set field v⟩

/-- Is this value the given Python string? A comparison of a string with a
value of another type is simply unequal in Python. -/
def valueIsStrEq (v : Value) (s : String) : Bool :=
  match v with
  | .vstr t => t = s
  | _ => false

/-- Is this value a string containing the given substring? -/
def valueStrHas (v : Value) (needle : String) : Bool :=
  match v with
  | .vstr t => strContains t needle
  | _ => false

/-- One iteration of the FORMAT rewriting loop of
VcfWriter._update_format_fields (writer.py, lines 309-345). -/
def updateOneFormatField (calls : List Call) (target : Nat) (field : String)
    (row : Dict) : List Call :=
  match row.get? field with
  | none => calls
  | some fv0 =>
    if fv0.isNone then calls
    else
      let fv : Value :=
        match fv0 with
        | .vstr s => if nanSentinel s then .vstr "." else .vstr s
        | v => v
      if valueIsStrEq fv "-" then calls
      else if valueStrHas fv " | " then calls
      else
        match calls[target]? with
        | none => calls
        | some call =>
          if ¬ call.data.hasKey field then calls
          else
            let orig := call.data.getV field
            let newVal : Value :=
              match orig with
              | .vlist _ =>
                let assigned : Value :=
                  match fv with
                  | .vstr s =>
                    if strContains s "," then
                      .vlist ((s.splitOn ",").map
                        (fun p => if p = "None" then Value.vstr "."
                                  else Value.vstr p))
                    else if s = "." then orig
                    else .vlist [.vstr s]
                  | v => .vlist [v]
                match assigned with
                | .vlist vs => .vlist (normalizeListElems vs)
                | v => v
              | _ => fv
            setCallData calls target field newVal

/-- The trailing per-sample ID cleanup of VcfWriter._update_format_fields
(writer.py, lines 347-352). -/
def cleanupIdField (calls : List Call) : List Call :=
  calls.map (fun c =>
    match c.data.get? "ID" with
    | some (.vstr s) =>
      if upperAscii s = "NAN" || upperAscii s = "NA" then
        ⟨c.data.set "ID" (.vstr ".")⟩
      else c
    | _ => c)

/-- VcfWriter._update_format_fields (writer.py, lines 256-352). -/
def updateFormatFields (info : Dict) (calls : List Call) (row : Dict) :
    List Call :=
  if calls.isEmpty then calls
  else
    let target := writerTargetSampleIdx calls.length info
    let calls := writerFormatFields.foldl
      (fun cs field => updateOneFormatField cs target field row) calls
    cleanupIdField calls

/-- The position-keyed lookup map built by VcfWriter._create_lookup. -/
def PosMap : Type := List ((String × Int) × Dict)

/-- First-match lookup in the position map. -/
def PosMap.find? : PosMap → (String × Int) → Option Dict
  | [], _ => none
  | (k', v') :: t, k => if k' = k then some v' else PosMap.find? t k

/-- Python dict overwrite into the position map. -/
def PosMap.set : PosMap → (String × Int) → Dict → PosMap
  | [], k, v => [(k, v)]
  | (k', v') :: t, k, v =>
    if k' = k then (k', v) :: t else (k', v') :: PosMap.set t k v

/-- VcfWriter._create_lookup (writer.py, lines 167-180): keys are
(str(CHROM), int(POSITION)); duplicate keys overwrite, so the last row
wins. -/
def createLookup (rows : List Dict) : Except PyErr PosMap :=
  rows.foldlM (fun m rd => do
    let p ← pyInt (rd.getV "POSITION")
    pure (m.set (pyStr (rd.getV "CHROM"), p) rd)) ([] : PosMap)

/-- VcfWriter._update_record (writer.py, lines 182-209): a record whose
(CHROM, POS) key has no dataset row passes through unchanged; otherwise the
writable INFO fields (conversion failures caught), confidence intervals,
caller fields and FORMAT fields are rewritten. -/
def writerUpdateRecord (rec : Record)
    (lookup : PosMap) : Except PyErr Record := do
  match lookup.find? (rec.chrom, rec.pos) with
  | none => pure rec
  | some row => do
    let info := writableInfoFields.foldl (fun acc f =>
      match row.get? f.1 with
      | none => acc
      | some raw =>
        match pdNotnaStrict raw with
        | .error _ => acc
        | .ok false => acc
        | .ok true =>
          match applyConv f.2.2 raw with
          | .ok (some v) => acc.set f.2.1 v
          | .ok none => acc
          | .error _ => acc) rec.info
    let info ← updateCIField info row "CIPOS"
    let info ← updateCIField info row "CIEND"
    let info ← updateCallerFields info row
    let calls := updateFormatFields info rec.calls row
    pure { rec with info := info, calls := calls }

/-- Monadic map over Except, recursion kept structural for easy length
reasoning. -/
def exceptMapM {α β : Type} (f : α → Except PyErr β) :
    List α → Except PyErr (List β)
  | [] => .ok []
  | a :: t => do
    let b ← f a
    let bs ← exceptMapM f t
    pure (b :: bs)

/-- The lookup-construction stage of VcfWriter.write: should_write is df
being present and non-empty (writer.py line 57), and only then is the
lookup built (line 111); otherwise it stays empty. -/
def writerLookup (df : Option (List Dict)) : Except PyErr PosMap :=
  let shouldWrite := match df with | some rows => !rows.isEmpty | none => false
  if shouldWrite then createLookup (df.getD []) else pure []

/-- VcfWriter.write (writer.py, lines 92-118): with an absent or empty
dataset the lookup is empty and every original record is emitted unchanged
(after the warning); otherwise each record is updated against the lookup
and written, one output record per input record. -/
def writerWrite (records : List Record) (df : Option (List Dict)) :
    Except PyErr (List Record) := do
  let lookup ← writerLookup df
  exceptMapM (fun r => writerUpdateRecord r lookup) records

/-! ## Helper lemmas -/

theorem exceptBind_ok {α β : Type} (a : α) (f : α → Except PyErr β) :
    (Except.ok a >>= f : Except PyErr β) = f a := rfl

theorem exceptBind_error {α β : Type} (e : PyErr) (f : α → Except PyErr β) :
    (Except.error e >>= f : Except PyErr β) = .error e := rfl

theorem exceptPure {α : Type} (a : α) :
    (pure a : Except PyErr α) = .ok a := rfl

theorem Dict.get?_isSome_iff_mem (d : Dict) (k : String) :
    (d.get? k).isSome ↔ k ∈ d.keys := by
  induction d with
  | nil => simp [Dict.get?, Dict.keys_nil]
  | cons hd t ih =>
    by_cases h : hd.1 = k
    · simp [Dict.get?, Dict.keys_cons, h]
    · simp [Dict.get?, Dict.keys_cons, h, ih, Ne.symm h]

theorem Dict.get?_eq_none_of_not_mem (d : Dict) (k : String)
    (h : k ∉ d.keys) : d.get? k = none := by
  rcases ho : d.get? k with _ | v
  · rfl
  · exact absurd ((Dict.get?_isSome_iff_mem d k).mp (by simp [ho])) h

/-- dict(info) reproduces first-match lookup exactly when the source dict
has distinct keys, which a Python dict always has. -/
theorem dictCopy_get? (info : Dict) (hwf : info.WF) (k : String) :
    (dictCopy info).get? k = info.get? k := by
  rcases ho : info.get? k with _ | v
  · have hk : k ∉ info.keys := by
      intro hm
      have := (Dict.get?_isSome_iff_mem info k).mpr hm
      simp [ho] at this
    rw [dictCopy, Dict.get?_update_of_not_mem _ _ _ hk]
    rfl
  · exact Dict.get?_update_of_get? _ _ _ _ hwf ho

theorem dictCopy_wf (info : Dict) : (dictCopy info).WF :=
  Dict.wf_update _ _ Dict.wf_empty

theorem baseNormalizeSvlen_nonneg (v : Value) (n : Int)
    (h : baseNormalizeSvlen v = .ok (some n)) : 0 ≤ n := by
  cases v with
  | vnone => simp [baseNormalizeSvlen] at h
  | vlist vs =>
    cases vs with
    | nil => simp [baseNormalizeSvlen] at h
    | cons x t =>
      simp only [baseNormalizeSvlen] at h
      cases hx : pyInt x with
      | ok m =>
        rw [hx] at h
        simp at h
        rw [← h]
        exact abs_nonneg m
      | error e => rw [hx] at h; simp at h
  | vbool b =>
    simp only [baseNormalizeSvlen] at h
    cases hx : pyInt (.vbool b) with
    | ok m => rw [hx] at h; simp at h; rw [← h]; exact abs_nonneg m
    | error e => rw [hx] at h; simp at h
  | vint m =>
    simp only [baseNormalizeSvlen, pyInt] at h
    simp at h
    rw [← h]
    exact abs_nonneg m
  | vfloat q =>
    simp only [baseNormalizeSvlen, pyInt] at h
    simp at h
    rw [← h]
    exact abs_nonneg _
  | vstr s =>
    simp only [baseNormalizeSvlen] at h
    cases hx : pyInt (.vstr s) with
    | ok m => rw [hx] at h; simp at h; rw [← h]; exact abs_nonneg m
    | error e => rw [hx] at h; simp at h

theorem generalNormalizeSvlen_abs (v : Value) (n : Int)
    (h : generalNormalizeSvlen v = some n) : ∃ m : Int, n = |m| := by
  cases v with
  | vnone => simp [generalNormalizeSvlen] at h
  | vlist vs =>
    cases vs with
    | nil => simp [generalNormalizeSvlen] at h
    | cons x t =>
      simp only [generalNormalizeSvlen] at h
      cases hx : pyInt x with
      | ok m => rw [hx] at h; simp at h; exact ⟨m, h.symm⟩
      | error e => rw [hx] at h; simp at h
  | vbool b =>
    simp only [generalNormalizeSvlen] at h
    cases hx : pyInt (.vbool b) with
    | ok m => rw [hx] at h; simp at h; exact ⟨m, h.symm⟩
    | error e => rw [hx] at h; simp at h
  | vint m =>
    simp only [generalNormalizeSvlen, pyInt] at h
    simp at h
    exact ⟨m, h.symm⟩
  | vfloat q =>
    simp only [generalNormalizeSvlen, pyInt] at h
    simp at h
    exact ⟨_, h.symm⟩
  | vstr s =>
    simp only [generalNormalizeSvlen] at h
    cases hx : pyInt (.vstr s) with
    | ok m => rw [hx] at h; simp at h; exact ⟨m, h.symm⟩
    | error e => rw [hx] at h; simp at h

/-! ## Claim C7: idempotent, sign-normalizing SVLEN normalization -/

/-- C7: GeneralProcessor.normalize_svlen is idempotent and
sign-normalizing: every successful result is a non-negative integer and a
fixed point of the normalizer, while None, the empty list and non-numeric
strings (those int() rejects) yield no value. -/
theorem general_normalize_svlen_idempotent :
    (∀ v n, generalNormalizeSvlen v = some n →
      0 ≤ n ∧ generalNormalizeSvlen (.vint n) = some n)
    ∧ generalNormalizeSvlen .vnone = none
    ∧ generalNormalizeSvlen (.vlist []) = none
    ∧ (∀ s, parseIntStr? s = none →
        generalNormalizeSvlen (.vstr s) = none) := by
  refine ⟨?_, rfl, rfl, ?_⟩
  · intro v n h
    obtain ⟨m, rfl⟩ := generalNormalizeSvlen_abs v n h
    refine ⟨abs_nonneg m, ?_⟩
    show some |(|m|)| = some |m|
    rw [abs_abs]
  · intro s hs
    simp [generalNormalizeSvlen, pyInt, hs]

/-- Witness for C7 at the numeric string -7: normalization yields 7, which
is non-negative and a fixed point. -/
theorem general_normalize_svlen_idempotent_witness :
    0 ≤ (7 : Int) ∧ generalNormalizeSvlen (.vint 7) = some 7 :=
  general_normalize_svlen_idempotent.1 (.vstr "-7") 7 rfl

/-! ## Claim C9: the two SVLEN normalizers disagree on the empty list -/

/-- C9: the general normalizer maps an empty-list SVLEN to no value, but
the caller-stage base-class normalizer indexes element 0 while catching
only ValueError and TypeError, so CallerProcessor.process_record raises an
uncaught IndexError on an empty-list SVLEN (shown for the Generic strategy,
whose other stages are total). -/
theorem svlen_empty_list_divergence :
    baseNormalizeSvlen (.vlist []) = .error .indexError
    ∧ generalNormalizeSvlen (.vlist []) = none
    ∧ (∀ info pos base, info.getV "SVLEN" = .vlist [] →
        processRecord .generic info pos base = .error .indexError) := by
  refine ⟨rfl, rfl, ?_⟩
  intro info pos base h
  simp only [processRecord, parseInfoFields, genericParseInfoFields, calcCI,
    genericCCI, exceptBind_ok, h, baseNormalizeSvlen, exceptBind_error]

/-- Witness for C9 at the one-binding INFO map with an empty-list SVLEN. -/
theorem svlen_empty_list_divergence_witness :
    processRecord .generic [("SVLEN", .vlist [])] 0 ∅ = .error .indexError :=
  svlen_empty_list_divergence.2.2 [("SVLEN", .vlist [])] 0 ∅ rfl

/-! ## Claim C2: totality of calculate_confidence_intervals -/

/-- C2 counterexample: the Sniffles strategy has no try/except around the
direct CIPOS passthrough, so a CIPOS list with non-numeric entries raises
ValueError and aborts the record instead of degrading to no value. -/
theorem sniffles_ci_raises_on_malformed_cipos :
    snifflesCCI [("CIPOS", .vlist [.vstr "low", .vstr "high"])] 10000
      = .error .valueError := rfl

/-- C2 amended: the Generic strategy (and GRIDSS, which inherits its
confidence-interval logic) is total: every parse failure degrades to no
value for that interval alone. The four named strategies with bespoke
encodings are not total on malformed direct CIPOS/CIEND lists. -/
theorem generic_ci_total :
    ∀ info pos, ∃ ci, genericCCI info pos = .ok ci
      ∧ gridssCCI info pos = .ok ci :=
  fun _ _ => ⟨_, rfl, rfl⟩

/-! ## Claim C6: caller dispatch -/

/-- C6: _get_caller_for_variant is a pure function of the caller name: a
missing or empty name selects Generic, otherwise the lower-cased name is
matched as a substring in the fixed priority order Sniffles, TIDDIT,
Dysgu, cuteSV, GRIDSS, the first match winning and no match selecting
Generic. -/
theorem caller_dispatch_rules :
    getCallerForVariant .vnone = .ok .generic
    ∧ getCallerForVariant (.vstr "") = .ok .generic
    ∧ (∀ s, strContains (lowerAscii s) "sniffles" = true →
        getCallerForVariant (.vstr s) = .ok .sniffles)
    ∧ (∀ s, strContains (lowerAscii s) "sniffles" = false →
        strContains (lowerAscii s) "tiddit" = true →
        getCallerForVariant (.vstr s) = .ok .tiddit)
    ∧ (∀ s, strContains (lowerAscii s) "sniffles" = false →
        strContains (lowerAscii s) "tiddit" = false →
        strContains (lowerAscii s) "dysgu" = true →
        getCallerForVariant (.vstr s) = .ok .dysgu)
    ∧ (∀ s, strContains (lowerAscii s) "sniffles" = false →
        strContains (lowerAscii s) "tiddit" = false →
        strContains (lowerAscii s) "dysgu" = false →
        strContains (lowerAscii s) "cutesv" = true →
        getCallerForVariant (.vstr s) = .ok .cutesv)
    ∧ (∀ s, strContains (lowerAscii s) "sniffles" = false →
        strContains (lowerAscii s) "tiddit" = false →
        strContains (lowerAscii s) "dysgu" = false →
        strContains (lowerAscii s) "cutesv" = false →
        strContains (lowerAscii s) "gridss" = true →
        getCallerForVariant (.vstr s) = .ok .gridss)
    ∧ (∀ s, strContains (lowerAscii s) "sniffles" = false →
        strContains (lowerAscii s) "tiddit" = false →
        strContains (lowerAscii s) "dysgu" = false →
        strContains (lowerAscii s) "cutesv" = false →
        strContains (lowerAscii s) "gridss" = false →
        getCallerForVariant (.vstr s) = .ok .generic) := by
  have hne : ∀ s needle, needle ≠ "" →
      strContains (lowerAscii s) needle = true → s ≠ "" := by
    intro s needle hneedle hc hs
    subst hs
    revert hc
    cases hn : needle.toList with
    | nil => exact absurd (by
        cases needle
        simpa [String.toList, String.data] using congrArg String.mk hn) hneedle
    | cons c t =>
      have hd : needle.data = c :: t := hn
      simp [strContains, lowerAscii, listHasInside, listStartsWith, hd]
  refine ⟨rfl, rfl, ?_, ?_, ?_, ?_, ?_, ?_⟩
  · intro s h
    have hs := hne s "sniffles" (by decide) h
    simp [getCallerForVariant, pyTruthy, hs, h]
  · intro s h1 h2
    have hs := hne s "tiddit" (by decide) h2
    simp [getCallerForVariant, pyTruthy, hs, h1, h2]
  · intro s h1 h2 h3
    have hs := hne s "dysgu" (by decide) h3
    simp [getCallerForVariant, pyTruthy, hs, h1, h2, h3]
  · intro s h1 h2 h3 h4
    have hs := hne s "cutesv" (by decide) h4
    simp [getCallerForVariant, pyTruthy, hs, h1, h2, h3, h4]
  · intro s h1 h2 h3 h4 h5
    have hs := hne s "gridss" (by decide) h5
    simp [getCallerForVariant, pyTruthy, hs, h1, h2, h3, h4, h5]
  · intro s h1 h2 h3 h4 h5
    by_cases hs : s = ""
    · subst hs
      rfl
    · simp [getCallerForVariant, pyTruthy, hs, h1, h2, h3, h4, h5]

/-- Witness for C6 at the name SnIfFlEs_v2, which matches Sniffles
case-insensitively. -/
theorem caller_dispatch_rules_witness :
    getCallerForVariant (.vstr "SnIfFlEs_v2") = .ok .sniffles :=
  caller_dispatch_rules.2.2.1 "SnIfFlEs_v2" (by decide)

/-! ## Claim C8: idempotent header enrichment -/

theorem infoIds_addInfoLine (h : Header) (l : InfoLine) :
    (h.addInfoLine l).infoIds = h.infoIds ++ [l.id] := by
  simp [Header.addInfoLine, Header.infoIds]

theorem addComputed_mem (h : Header) :
    "SUPP_CALLERS" ∈ (addComputedInfoHeaders h).infoIds
    ∧ "PRIMARY_CALLER" ∈ (addComputedInfoHeaders h).infoIds
    ∧ "NUM_CALLERS" ∈ (addComputedInfoHeaders h).infoIds := by
  by_cases c1 : "SUPP_CALLERS" ∈ h.infoIds <;>
    by_cases c2 : "PRIMARY_CALLER" ∈ h.infoIds <;>
      by_cases c3 : "NUM_CALLERS" ∈ h.infoIds <;>
        simp [addComputedInfoHeaders, c1, c2, c3, infoIds_addInfoLine,
          suppCallersLine, primaryCallerLine, numCallersLine]

theorem addComputed_of_all_present (h : Header)
    (h1 : "SUPP_CALLERS" ∈ h.infoIds) (h2 : "PRIMARY_CALLER" ∈ h.infoIds)
    (h3 : "NUM_CALLERS" ∈ h.infoIds) : addComputedInfoHeaders h = h := by
  simp [addComputedInfoHeaders, h1, h2, h3]

/-- C8: header enrichment is idempotent: each computed INFO declaration is
added only when its id is absent, a header already carrying all three is
returned unchanged, and re-applying the mutation never duplicates a
declaration. -/
theorem header_enrichment_idempotent :
    (∀ h : Header, "SUPP_CALLERS" ∈ h.infoIds →
      "PRIMARY_CALLER" ∈ h.infoIds → "NUM_CALLERS" ∈ h.infoIds →
      addComputedInfoHeaders h = h)
    ∧ (∀ h : Header,
      addComputedInfoHeaders (addComputedInfoHeaders h)
        = addComputedInfoHeaders h)
    ∧ (∀ h : Header, "SUPP_CALLERS" ∉ h.infoIds →
      "SUPP_CALLERS" ∈ (addComputedInfoHeaders h).infoIds) := by
  refine ⟨addComputed_of_all_present, ?_, ?_⟩
  · intro h
    obtain ⟨m1, m2, m3⟩ := addComputed_mem h
    exact addComputed_of_all_present _ m1 m2 m3
  · intro h _
    exact (addComputed_mem h).1

/-- Witness for C8 at a header already carrying the three computed
declarations. -/
theorem header_enrichment_idempotent_witness :
    addComputedInfoHeaders
      ⟨[suppCallersLine, primaryCallerLine, numCallersLine]⟩
      = ⟨[suppCallersLine, primaryCallerLine, numCallersLine]⟩ :=
  header_enrichment_idempotent.1
    ⟨[suppCallersLine, primaryCallerLine, numCallersLine]⟩
    (by decide) (by decide) (by decide)

/-! ## Claim C10: active-sample fallback to index 0 -/

theorem firstOneIdx_eq_zero :
    ∀ (cs : List Char) (i : Nat), '1' ∉ cs → firstOneIdx cs i = 0
  | [], _, _ => rfl
  | c :: t, i, h => by
    have hc : ¬ c = '1' := fun e => h (by rw [e]; exact List.mem_cons_self _ _)
    rw [firstOneIdx, if_neg hc]
    exact firstOneIdx_eq_zero t (i + 1) (fun m => h (List.mem_cons_of_mem _ m))

/-- C10: when SUPP_VEC is absent, empty, or contains no set bit, both the
SURVIVOR per-sample extraction and the writer FORMAT rewriting fall back to
sample index 0; a non-zero selected index can only arise from a set bit. -/
theorem active_sample_fallback_zero :
    (∀ s : String, '1' ∉ s.toList → activeSampleIdx s = 0)
    ∧ (∀ s : String, activeSampleIdx s ≠ 0 → '1' ∈ s.toList)
    ∧ (∀ info : Dict, info.hasKey "SUPP_VEC" = false →
        survivorActiveSampleIdx info = 0
        ∧ ∀ n, writerTargetSampleIdx n info = 0)
    ∧ (∀ (info : Dict) (s : String),
        info.get? "SUPP_VEC" = some (.vstr s) → '1' ∉ s.toList →
        survivorActiveSampleIdx info = 0
        ∧ ∀ n, writerTargetSampleIdx n info = 0) := by
  have hzero : ∀ s : String, '1' ∉ s.toList → activeSampleIdx s = 0 :=
    fun s h => firstOneIdx_eq_zero s.toList 0 h
  refine ⟨hzero, ?_, ?_, ?_⟩
  · intro s h
    by_contra hm
    exact h (hzero s hm)
  · intro info h
    have hnone : info.get? "SUPP_VEC" = none := by
      rcases ho : info.get? "SUPP_VEC" with _ | v
      · rfl
      · rw [Dict.hasKey, ho] at h
        simp at h
    constructor
    · rw [survivorActiveSampleIdx, Dict.getVD, hnone]
      rfl
    · intro n
      rw [writerTargetSampleIdx]
      by_cases hn : 1 < n
      · rw [if_pos hn, Dict.getVD, hnone]
        rfl
      · rw [if_neg hn]
  · intro info s hs h1
    constructor
    · rw [survivorActiveSampleIdx, Dict.getVD, hs]
      exact hzero s h1
    · intro n
      rw [writerTargetSampleIdx]
      by_cases hn : 1 < n
      · rw [if_pos hn, Dict.getVD, hs]
        exact hzero s h1
      · rw [if_neg hn]

/-- Witness for C10 at a SUPP_VEC of all zero bits over four sample
slots. -/
theorem active_sample_fallback_zero_witness :
    survivorActiveSampleIdx [("SUPP_VEC", .vstr "0000")] = 0
    ∧ writerTargetSampleIdx 4 [("SUPP_VEC", .vstr "0000")] = 0 := by
  obtain ⟨ha, hb⟩ := active_sample_fallback_zero.2.2.2
    [("SUPP_VEC", .vstr "0000")] "0000" rfl (by decide)
  exact ⟨ha, hb 4⟩

/-! ## Claim C4: the writer never adds or drops a record -/

theorem writerUpdateRecord_nil (r : Record) :
    writerUpdateRecord r [] = .ok r := rfl

theorem exceptMapM_ok_id {α : Type} (f : α → Except PyErr α) (l : List α)
    (h : ∀ a, f a = .ok a) : exceptMapM f l = .ok l := by
  induction l with
  | nil => rfl
  | cons a t ih =>
    rw [exceptMapM, h a, exceptBind_ok, ih, exceptBind_ok]
    rfl

theorem exceptMapM_length {α β : Type} (f : α → Except PyErr β) :
    ∀ (l : List α) (out : List β),
      exceptMapM f l = .ok out → out.length = l.length := by
  intro l
  induction l with
  | nil =>
    intro out h
    rw [exceptMapM] at h
    cases h
    rfl
  | cons a t ih =>
    intro out h
    rw [exceptMapM] at h
    cases hf : f a with
    | error e => rw [hf, exceptBind_error] at h; cases h
    | ok b =>
      rw [hf, exceptBind_ok] at h
      cases hmm : exceptMapM f t with
      | error e => rw [hmm, exceptBind_error] at h; cases h
      | ok bs =>
        rw [hmm, exceptBind_ok] at h
        cases h
        simp [ih bs hmm]

/-- C4: the writer is record-count preserving: whenever it succeeds, the
enriched output has exactly as many records as the original, and with an
absent or empty dataset every original record is emitted unchanged. -/
theorem writer_round_trip_count :
    (∀ records : List Record, writerWrite records none = .ok records)
    ∧ (∀ records : List Record, writerWrite records (some []) = .ok records)
    ∧ (∀ (records : List Record) (df : Option (List Dict))
        (out : List Record), writerWrite records df = .ok out →
        out.length = records.length) := by
  have hempty : ∀ (records : List Record) (df : Option (List Dict)),
      writerLookup df = pure [] → writerWrite records df = .ok records := by
    intro records df hdf
    rw [writerWrite, hdf, exceptPure, exceptBind_ok]
    exact exceptMapM_ok_id _ _ writerUpdateRecord_nil
  refine ⟨fun records => hempty records none rfl,
    fun records => hempty records (some []) rfl, ?_⟩
  intro records df out h
  rw [writerWrite] at h
  cases hl : writerLookup df with
  | error e => rw [hl, exceptBind_error] at h; cases h
  | ok lookup =>
    rw [hl, exceptBind_ok] at h
    exact exceptMapM_length _ records out h

/-- A concrete one-record input used to witness C4. -/
def c4Record : Record :=
  { chrom := "chr1", pos := 1000, id := none, ref := "N", alt := [],
    qual := .vnone, filter := [], info := [], format := [], calls := [] }

/-- A concrete one-row dataset used to witness C4. -/
def c4Row : Dict :=
  [("CHROM", .vstr "chr1"), ("POSITION", .vint 1000),
   ("SVTYPE", .vstr "DEL")]

/-- Witness for C4 at a one-record file and a one-row dataset. -/
theorem writer_round_trip_count_witness :
    ∃ out : List Record,
      writerWrite [c4Record] (some [c4Row]) = .ok out ∧ out.length = 1 := by
  refine ⟨_, rfl, ?_⟩
  exact writer_round_trip_count.2.2 [c4Record] (some [c4Row]) _ rfl

/-! ## Claim C5: Sniffles standard-deviation intervals -/

theorem snifflesCiposStd_eval (info : Dict) (pos : Int)
    (dflt : Option (Int × Int)) (v : Value) (q : ℚ)
    (hk : info.hasKey "CIPOS_STD" = true)
    (hsv : scalarOrHead (info.getV "CIPOS_STD") = .ok v)
    (hq : pyFloat v = .ok q) :
    snifflesCiposStd info pos dflt
      = .ok (some (pyTrunc ((pos : ℚ) - 2 * q),
          pyTrunc ((pos : ℚ) + 2 * q))) := by
  rw [snifflesCiposStd, if_pos hk, hsv, exceptBind_ok, hq]
  rfl

theorem snifflesCiendStd_eval (info : Dict) (dflt : Option (Int × Int))
    (v : Value) (q e : ℚ)
    (hk : info.hasKey "CIEND_STD" = true)
    (hsv : scalarOrHead (info.getV "CIEND_STD") = .ok v)
    (hq : pyFloat v = .ok q)
    (hend : pyFloat (info.getVD "END" (.vint 0)) = .ok e) :
    snifflesCiendStd info dflt
      = .ok (some (pyTrunc (e - 2 * q), pyTrunc (e + 2 * q))) := by
  rw [snifflesCiendStd, if_pos hk, hsv, exceptBind_ok, hend, hq]
  rfl

/-- C5: whenever the Sniffles strategy succeeds and CIPOS_STD parses as a
float, the computed CIPOS is the truncated interval position plus or minus
two standard deviations; symmetrically CIEND_STD yields the interval
centered on float(info.get("END", 0)). -/
theorem sniffles_std_intervals :
    (∀ (info : Dict) (pos : Int) (v : Value) (q : ℚ)
      (r : Option (Int × Int) × Option (Int × Int)),
      info.hasKey "CIPOS_STD" = true →
      scalarOrHead (info.getV "CIPOS_STD") = .ok v →
      pyFloat v = .ok q →
      snifflesCCI info pos = .ok r →
      r.1 = some (pyTrunc ((pos : ℚ) - 2 * q), pyTrunc ((pos : ℚ) + 2 * q)))
    ∧ (∀ (info : Dict) (pos : Int) (v : Value) (q e : ℚ)
      (r : Option (Int × Int) × Option (Int × Int)),
      info.hasKey "CIEND_STD" = true →
      scalarOrHead (info.getV "CIEND_STD") = .ok v →
      pyFloat v = .ok q →
      pyFloat (info.getVD "END" (.vint 0)) = .ok e →
      snifflesCCI info pos = .ok r →
      r.2 = some (pyTrunc (e - 2 * q), pyTrunc (e + 2 * q))) := by
  constructor
  · intro info pos v q r hk hsv hq hr
    rw [snifflesCCI] at hr
    cases h1 : directCIField info "CIPOS" with
    | error e => rw [h1, exceptBind_error] at hr; cases hr
    | ok c0 =>
      rw [h1, exceptBind_ok] at hr
      cases h2 : directCIField info "CIEND" with
      | error e => rw [h2, exceptBind_error] at hr; cases hr
      | ok e0 =>
        rw [h2, exceptBind_ok,
          snifflesCiposStd_eval info pos c0 v q hk hsv hq, exceptBind_ok] at hr
        cases h3 : snifflesCiendStd info e0 with
        | error e => rw [h3, exceptBind_error] at hr; cases hr
        | ok ce =>
          rw [h3, exceptBind_ok, exceptPure] at hr
          cases hr
          rfl
  · intro info pos v q e r hk hsv hq hend hr
    rw [snifflesCCI] at hr
    cases h1 : directCIField info "CIPOS" with
    | error er => rw [h1, exceptBind_error] at hr; cases hr
    | ok c0 =>
      rw [h1, exceptBind_ok] at hr
      cases h2 : directCIField info "CIEND" with
      | error er => rw [h2, exceptBind_error] at hr; cases hr
      | ok e0 =>
        rw [h2, exceptBind_ok] at hr
        cases h3 : snifflesCiposStd info pos c0 with
        | error er => rw [h3, exceptBind_error] at hr; cases hr
        | ok cp =>
          rw [h3, exceptBind_ok,
            snifflesCiendStd_eval info e0 v q e hk hsv hq hend,
            exceptBind_ok, exceptPure] at hr
          cases hr
          rfl

theorem pyTrunc_intCast (n : Int) : pyTrunc ((n : Int) : ℚ) = n := by
  simp [pyTrunc, Rat.num_intCast, Rat.den_intCast]

/-- Witness for C5 at the spec scenario POS = 10000 with CIPOS_STD = 5.0:
the computed CIPOS is [9990, 10010]. -/
theorem sniffles_std_intervals_witness :
    ∃ r : Option (Int × Int) × Option (Int × Int),
      snifflesCCI [("CIPOS_STD", .vfloat 5)] 10000 = .ok r
      ∧ r.1 = some (9990, 10010) := by
  have hcc : snifflesCCI [("CIPOS_STD", .vfloat 5)] 10000
      = .ok (some (pyTrunc ((((10000 : ℤ) : ℚ)) - 2 * 5),
          pyTrunc ((((10000 : ℤ) : ℚ)) + 2 * 5)), none) := rfl
  refine ⟨_, hcc, ?_⟩
  have h := sniffles_std_intervals.1 [("CIPOS_STD", .vfloat 5)] 10000
    (.vfloat 5) 5 _ rfl rfl rfl hcc
  rw [h]
  have e1 : (((10000 : ℤ) : ℚ)) - 2 * 5 = (((9990 : ℤ) : ℚ)) := by norm_num
  have e2 : (((10000 : ℤ) : ℚ)) + 2 * 5 = (((10010 : ℤ) : ℚ)) := by norm_num
  rw [e1, e2, pyTrunc_intCast, pyTrunc_intCast]

/-! ## Claim C3: groupwise SUPP_CALLERS aggregation -/

/-- C3: after compute_supp_callers, every row whose key columns have the
pipeline shape carries SUPP_CALLERS equal to the sorted deduplicated
comma-joined set of the non-null PRIMARY_CALLER values of exactly the input
rows sharing its (CHROM, POSITION, SVTYPE) key; rows with equal keys thus
carry identical values, and rows differing in any key component draw from
disjoint row sets. The hypothesis that no input row already has a
SUPP_CALLERS column keeps the statement inside the domain where the
association-list model and the pandas merge agree. -/
theorem supp_callers_groupwise (rows : List Dict)
    (_hclean : ∀ rd ∈ rows, rd.hasKey "SUPP_CALLERS" = false) :
    ∀ rd ∈ computeSuppCallers rows, ∀ (c : String) (p : Int) (t : String),
      rd.get? "CHROM" = some (.vstr c) →
      rd.get? "POSITION" = some (.vint p) →
      rd.get? "SVTYPE" = some (.vstr t) →
      rd.get? "SUPP_CALLERS"
        = some (.vstr (sortedSetJoin "," (groupCallers rows (c, p, t)))) := by
  intro rd hmem c p t hc hp ht
  rw [computeSuppCallers] at hmem
  by_cases he : rows.isEmpty
  · rw [if_pos he] at hmem
    rw [List.isEmpty_iff.mp he] at hmem
    cases hmem
  · rw [if_neg he] at hmem
    obtain ⟨rd0, hrd0, rfl⟩ := List.mem_map.mp hmem
    cases hk : rowKey rd0 with
    | none =>
      simp only [hk] at hc hp ht
      rw [Dict.get?_set_ne _ _ _ _ (by decide)] at hc hp ht
      rw [rowKey, hc, hp, ht] at hk
      cases hk
    | some k =>
      simp only [hk] at hc hp ht ⊢
      rw [Dict.get?_set_ne _ _ _ _ (by decide)] at hc hp ht
      have hkey : rowKey rd0 = some (c, p, t) := by
        rw [rowKey, hc, hp, ht]
      rw [hkey] at hk
      cases hk
      rw [Dict.get?_set_self]

/-- The two-row BCF scenario of the spec: equal keys, callers delly and
dysgu. -/
def c3Row1 : Dict :=
  [("CHROM", .vstr "chr1"), ("POSITION", .vint 1000),
   ("SVTYPE", .vstr "DEL"), ("PRIMARY_CALLER", .vstr "dysgu")]

/-- The second row of the C3 scenario. -/
def c3Row2 : Dict :=
  [("CHROM", .vstr "chr1"), ("POSITION", .vint 1000),
   ("SVTYPE", .vstr "DEL"), ("PRIMARY_CALLER", .vstr "delly")]

/-- Witness for C3 at the spec scenario: both rows aggregate to the value
delly,dysgu. -/
theorem supp_callers_groupwise_witness :
    ∃ rd, rd ∈ computeSuppCallers [c3Row1, c3Row2]
      ∧ rd.get? "SUPP_CALLERS" = some (.vstr "delly,dysgu") := by
  have hout : computeSuppCallers [c3Row1, c3Row2]
      = [c3Row1 ++ [("SUPP_CALLERS", .vstr "delly,dysgu")],
         c3Row2 ++ [("SUPP_CALLERS", .vstr "delly,dysgu")]] := rfl
  refine ⟨c3Row1 ++ [("SUPP_CALLERS", .vstr "delly,dysgu")], ?_, ?_⟩
  · rw [hout]
    exact List.mem_cons_self _ _
  · have h := supp_callers_groupwise [c3Row1, c3Row2]
      (by intro rd hrd
          rcases List.mem_cons.mp hrd with h | h
          · rw [h]; rfl
          · rcases List.mem_cons.mp h with h | h
            · rw [h]; rfl
            · cases h)
      (c3Row1 ++ [("SUPP_CALLERS", .vstr "delly,dysgu")])
      (by rw [hout]; exact List.mem_cons_self _ _)
      "chr1" 1000 "DEL" (by rfl) (by rfl) (by rfl)
    rw [h]
    rfl

/-! ## Claim C1: SVLEN in the retained dataset -/

/-- One dictionary extends another without touching its SVLEN binding and
without breaking key distinctness. -/
def PreservesSvlen (p q : Dict) : Prop :=
  q.get? "SVLEN" = p.get? "SVLEN" ∧ (p.WF → q.WF)

theorem preservesSvlen_refl (p : Dict) : PreservesSvlen p p :=
  ⟨rfl, id⟩

theorem preservesSvlen_set (p : Dict) (k : String) (v : Value)
    (hk : k ≠ "SVLEN") : PreservesSvlen p (p.set k v) :=
  ⟨Dict.get?_set_ne p k "SVLEN" v hk, fun w => Dict.wf_set p k v w⟩

theorem preservesSvlen_trans {p q r : Dict}
    (h1 : PreservesSvlen p q) (h2 : PreservesSvlen q r) :
    PreservesSvlen p r :=
  ⟨h2.1.trans h1.1, fun w => h2.2 (h1.2 w)⟩

theorem guardedRetype_preserves (parsed : Dict) (key : String) (v : Value)
    (conv : Value → Except PyErr Value) (out : Dict) (hk : key ≠ "SVLEN")
    (h : guardedRetype parsed key v conv = .ok out) :
    PreservesSvlen parsed out := by
  rw [guardedRetype] at h
  cases hs : scalarOrHead v with
  | error e => rw [hs, exceptBind_error] at h; cases h
  | ok x =>
    rw [hs, exceptBind_ok] at h
    by_cases ht : pyTruthy x = true
    · rw [if_pos ht] at h
      cases hc : conv x with
      | ok w =>
        rw [hc] at h
        cases h
        exact preservesSvlen_set parsed key w hk
      | error e =>
        rw [hc] at h
        cases h
        exact preservesSvlen_set parsed key .vnone hk
    · rw [if_neg ht] at h
      cases h
      exact preservesSvlen_set parsed key .vnone hk

theorem condRetype_preserves (info parsed : Dict) (key : String)
    (conv : Value → Except PyErr Value) (out : Dict) (hk : key ≠ "SVLEN")
    (h : condRetype info parsed key conv = .ok out) :
    PreservesSvlen parsed out := by
  rw [condRetype] at h
  by_cases hhk : info.hasKey key = true
  · rw [if_pos hhk] at h
    exact guardedRetype_preserves parsed key (info.getV key) conv out hk h
  · rw [if_neg hhk] at h
    cases h
    exact preservesSvlen_refl parsed

theorem snifflesSupportStep_preserves (info parsed out : Dict)
    (h : snifflesSupportStep info parsed = .ok out) :
    PreservesSvlen parsed out := by
  rw [snifflesSupportStep] at h
  by_cases hhk : info.hasKey "SUPPORT" = true
  · rw [if_pos hhk] at h
    by_cases ht : pyTruthy (info.getV "SUPPORT") = true
    · rw [if_pos ht] at h
      cases hn : pyInt (info.getV "SUPPORT") with
      | error e => rw [hn, exceptBind_error] at h; cases h
      | ok n =>
        rw [hn, exceptBind_ok] at h
        cases h
        exact preservesSvlen_set parsed "SUPPORT" _ (by decide)
    · rw [if_neg ht] at h
      cases h
      exact preservesSvlen_set parsed "SUPPORT" _ (by decide)
  · rw [if_neg hhk] at h
    cases h
    exact preservesSvlen_refl parsed

theorem rnamesStep_preserves (info parsed : Dict) :
    PreservesSvlen parsed (rnamesStep info parsed) := by
  rw [rnamesStep]
  by_cases hhk : info.hasKey "RNAMES" = true
  · rw [if_pos hhk]
    cases info.getV "RNAMES" <;>
      first
        | exact preservesSvlen_refl parsed
        | exact preservesSvlen_set parsed "NUM_RNAMES" _ (by decide)
  · rw [if_neg hhk]
    exact preservesSvlen_refl parsed

theorem tidditCilenScalar_preserves (parsed out : Dict) (v : Value)
    (h : tidditCilenScalar parsed v = .ok out) :
    PreservesSvlen parsed out := by
  rw [tidditCilenScalar] at h
  by_cases ht : pyTruthy v = true
  · rw [if_pos ht] at h
    cases hn : pyInt v with
    | error e => rw [hn, exceptBind_error] at h; cases h
    | ok n =>
      rw [hn, exceptBind_ok] at h
      cases h
      exact preservesSvlen_set parsed "CILEN" _ (by decide)
  · rw [if_neg ht] at h
    cases h
    exact preservesSvlen_refl parsed

theorem tidditCilenPair_preserves (parsed out : Dict) (a b : Value)
    (h : tidditCilenPair parsed a b = .ok out) :
    PreservesSvlen parsed out := by
  rw [tidditCilenPair] at h
  cases h1 : truthyIntValue a with
  | error e => rw [h1, exceptBind_error] at h; cases h
  | ok vmin =>
    rw [h1, exceptBind_ok] at h
    cases h2 : truthyIntValue b with
    | error e => rw [h2, exceptBind_error] at h; cases h
    | ok vmax =>
      rw [h2, exceptBind_ok] at h
      cases h
      exact preservesSvlen_trans
        (preservesSvlen_set parsed "CILEN_MIN" vmin (by decide))
        (preservesSvlen_set _ "CILEN_MAX" vmax (by decide))

theorem tidditCilenStep_preserves (info parsed out : Dict)
    (h : tidditCilenStep info parsed = .ok out) :
    PreservesSvlen parsed out := by
  rw [tidditCilenStep] at h
  by_cases hhk : info.hasKey "CILEN" = true
  · rw [if_pos hhk] at h
    rcases hv : info.getV "CILEN" with _ | b0 | n0 | q0 | s0 | vs <;>
      rw [hv] at h
    case pos.vlist =>
      rcases vs with _ | ⟨a, _ | ⟨b, rest⟩⟩
      · exact tidditCilenScalar_preserves parsed out (.vlist []) h
      · exact tidditCilenScalar_preserves parsed out (.vlist [a]) h
      · exact tidditCilenPair_preserves parsed out a b h
    all_goals
      exact tidditCilenScalar_preserves parsed out _ h
  · rw [if_neg hhk] at h
    cases h
    exact preservesSvlen_refl parsed

/-- Every caller strategy passes SVLEN through parse_info_fields verbatim
(each one copies the INFO dict and only re-types other keys), and its
output keeps distinct keys. -/
theorem parseInfoFields_preserves (k : CallerKind) (info parsed : Dict)
    (h : parseInfoFields k info = .ok parsed) :
    PreservesSvlen (dictCopy info) parsed := by
  cases k with
  | generic =>
    cases h
    exact preservesSvlen_refl _
  | gridss =>
    simp only [parseInfoFields, gridssParseInfoFields] at h
    by_cases hc : (((dictCopy info).getV "SVTYPE").isNone
        && ((dictCopy info).getV "MATEID").isNone) = true
    · rw [if_pos hc] at h
      cases h
      exact preservesSvlen_set _ "SVTYPE" _ (by decide)
    · rw [if_neg hc] at h
      cases h
      exact preservesSvlen_refl _
  | sniffles =>
    simp only [parseInfoFields, snifflesParseInfoFields] at h
    cases hs : snifflesSupportStep info (dictCopy info) with
    | error e => rw [hs, exceptBind_error] at h; cases h
    | ok p1 =>
      rw [hs, exceptBind_ok] at h
      cases h
      exact preservesSvlen_trans
        (snifflesSupportStep_preserves info _ p1 hs)
        (rnamesStep_preserves info p1)
  | tiddit =>
    simp only [parseInfoFields, tidditParseInfoFields] at h
    cases hs : tidditCilenStep info (dictCopy info) with
    | error e => rw [hs, exceptBind_error] at h; cases h
    | ok p1 =>
      rw [hs, exceptBind_ok] at h
      cases h
      refine preservesSvlen_trans (tidditCilenStep_preserves info _ p1 hs) ?_
      by_cases ho : info.hasKey "OA" = true
      · rw [if_pos ho]
        exact preservesSvlen_set p1 "OA" _ (by decide)
      · rw [if_neg ho]
        exact preservesSvlen_refl p1
  | dysgu =>
    simp only [parseInfoFields, dysguParseInfoFields] at h
    cases hs : condRetype info (dictCopy info) "NMP" intConv with
    | error e => rw [hs, exceptBind_error] at h; cases h
    | ok p1 =>
      rw [hs, exceptBind_ok] at h
      exact preservesSvlen_trans
        (condRetype_preserves info _ "NMP" intConv p1 (by decide) hs)
        (condRetype_preserves info p1 "MAPQ" floatConv parsed (by decide) h)
  | cutesv =>
    simp only [parseInfoFields, cutesvParseInfoFields] at h
    cases hs : condRetype info (dictCopy info) "RE" intConv with
    | error e => rw [hs, exceptBind_error] at h; cases h
    | ok p1 =>
      rw [hs, exceptBind_ok] at h
      refine preservesSvlen_trans
        (condRetype_preserves info _ "RE" intConv p1 (by decide) hs) ?_
      refine preservesSvlen_trans (q := rnamesStep info
        (if info.hasKey "STRAND" = true then
          p1.set "STRAND" (.vstr (pyStr (info.getV "STRAND"))) else p1)) ?_ ?_
      · refine preservesSvlen_trans ?_ (rnamesStep_preserves info _)
        by_cases hstr : info.hasKey "STRAND" = true
        · rw [if_pos hstr]
          exact preservesSvlen_set p1 "STRAND" _ (by decide)
        · rw [if_neg hstr]
          exact preservesSvlen_refl p1
      · exact condRetype_preserves info _ "AF" floatConv parsed (by decide) h

theorem Dict.mem_keys_set (d : Dict) (k k' : String) (v : Value)
    (h : k' ∈ (d.set k v).keys) : k' ∈ d.keys ∨ k' = k := by
  by_cases hm : k ∈ d.keys
  · rw [Dict.keys_set_of_mem d k v hm] at h
    exact Or.inl h
  · rw [Dict.keys_set_of_not_mem d k v hm] at h
    rcases List.mem_append.mp h with h | h
    · exact Or.inl h
    · exact Or.inr (List.mem_singleton.mp h)

theorem Dict.not_mem_keys_set (d : Dict) (k k' : String) (v : Value)
    (h1 : k' ∉ d.keys) (h2 : k' ≠ k) : k' ∉ (d.set k v).keys :=
  fun hm => (Dict.mem_keys_set d k k' v hm).elim h1 h2

theorem not_mem_keys_condSet (d : Dict) (cond : Prop) [Decidable cond]
    (k key : String) (v : Value) (h1 : k ∉ d.keys) (h2 : k ≠ key) :
    k ∉ (if cond then d else d.set key v).keys := by
  by_cases hc : cond
  · rw [if_pos hc]
    exact h1
  · rw [if_neg hc]
    exact Dict.not_mem_keys_set d key k v h1 h2

theorem keys_empty_dict : Dict.keys (∅ : Dict) = [] := rfl

theorem foldl_set_keys_not_mem (l : List String) (g : String → Value)
    (k : String) :
    ∀ acc : Dict, k ∉ l → k ∉ acc.keys →
      k ∉ (l.foldl (fun a field =>
        if field = "ID" then a else a.set field (g field)) acc).keys := by
  induction l with
  | nil =>
    intro acc _ h
    exact h
  | cons f t ih =>
    intro acc hl hacc
    have hkf : k ≠ f := fun e => hl (by rw [e]; exact List.mem_cons_self _ _)
    have hkt : k ∉ t := fun m => hl (List.mem_cons_of_mem _ m)
    simp only [List.foldl_cons]
    by_cases hid : f = "ID"
    · rw [if_pos hid]
      exact ih acc hkt hacc
    · rw [if_neg hid]
      exact ih _ hkt (Dict.not_mem_keys_set acc f k (g f) hacc hkf)

theorem formatFold_keys (format : List String) (g : String → Value)
    (k : String) (hk : k ∉ format) : k ∉ (formatFold format g).keys := by
  rw [formatFold]
  exact foldl_set_keys_not_mem format g k ∅ hk
    (by rw [keys_empty_dict]; exact List.not_mem_nil k)

theorem bcfSampleFields_no_key (r : Record) (samples : List String)
    (k : String) (hk1 : k ∉ r.format) (hk2 : k ∉ ["GT", "PR", "SR", "GQ"]) :
    k ∉ (bcfProcessSampleFields r samples).keys := by
  have hgt : k ≠ "GT" := fun e => hk2 (by rw [e]; decide)
  have hpr : k ≠ "PR" := fun e => hk2 (by rw [e]; decide)
  have hsr : k ≠ "SR" := fun e => hk2 (by rw [e]; decide)
  have hgq : k ≠ "GQ" := fun e => hk2 (by rw [e]; decide)
  simp only [bcfProcessSampleFields]
  exact not_mem_keys_condSet _ _ _ _ _
    (not_mem_keys_condSet _ _ _ _ _
      (not_mem_keys_condSet _ _ _ _ _
        (not_mem_keys_condSet _ _ _ _ _
          (formatFold_keys r.format _ k hk1) hgt) hpr) hsr) hgq

theorem survivorSampleFields_no_key (r : Record) (samples : List String)
    (k : String) (hk1 : k ∉ r.format) (hk2 : k ∉ ["GT", "PR", "SR", "GQ"]) :
    k ∉ (survivorProcessSampleFields r samples).keys := by
  have hgt : k ≠ "GT" := fun e => hk2 (by rw [e]; decide)
  have hpr : k ≠ "PR" := fun e => hk2 (by rw [e]; decide)
  have hsr : k ≠ "SR" := fun e => hk2 (by rw [e]; decide)
  have hgq : k ≠ "GQ" := fun e => hk2 (by rw [e]; decide)
  simp only [survivorProcessSampleFields]
  cases hcall : r.calls[survivorActiveSampleIdx r.info]? with
  | none =>
    apply not_mem_keys_condSet _ _ _ _ _
      (not_mem_keys_condSet _ _ _ _ _
        (not_mem_keys_condSet _ _ _ _ _
          (not_mem_keys_condSet _ _ _ _ _
            (by rw [keys_empty_dict]; exact List.not_mem_nil k) hgt)
          hpr) hsr) hgq
  | some call =>
    apply not_mem_keys_condSet _ _ _ _ _
      (not_mem_keys_condSet _ _ _ _ _
        (not_mem_keys_condSet _ _ _ _ _
          (not_mem_keys_condSet _ _ _ _ _
            (formatFold_keys r.format _ k hk1) hgt) hpr) hsr) hgq

theorem handlerSampleFields_no_svlen (h : HandlerKind) (r : Record)
    (samples : List String) (hk : "SVLEN" ∉ r.format) :
    "SVLEN" ∉ (handlerProcessSampleFields h r samples).keys := by
  cases h with
  | bcf => exact bcfSampleFields_no_key r samples "SVLEN" hk (by decide)
  | survivor => exact survivorSampleFields_no_key r samples "SVLEN" hk (by decide)

theorem survivorSvFields_keys (info : Dict) :
    (survivorSvFields info).keys = ["SUPP_VEC", "STRANDS", "SVMETHOD"] := rfl

theorem survivorBaseFields_no_svlen (info : Dict) (id : Option String) :
    "SVLEN" ∉ (survivorBaseFields info id).keys := by
  cases id with
  | none =>
    rw [survivorBaseFields, survivorSvFields_keys]
    decide
  | some s =>
    rw [survivorBaseFields]
    by_cases hc : (s ≠ "" && strContains s "_") = true
    · rw [if_pos hc]
      refine Dict.not_mem_keys_set _ _ _ _ ?_ (by decide)
      rw [survivorSvFields_keys]
      decide
    · rw [if_neg hc, survivorSvFields_keys]
      decide

theorem handlerTS_no_svlen (h : HandlerKind) (info : Dict) (r : Record)
    (ts : Dict) (hts : handlerExtractTypeSpecific h info r = .ok ts) :
    "SVLEN" ∉ ts.keys := by
  cases h with
  | bcf =>
    cases hts
    rw [keys_empty_dict]
    exact List.not_mem_nil _
  | survivor =>
    simp only [handlerExtractTypeSpecific, survivorExtractTypeSpecific] at hts
    cases hc : survivorCallers r.calls with
    | error e => rw [hc, exceptBind_error] at hts; cases hts
    | ok callers =>
      rw [hc, exceptBind_ok] at hts
      by_cases he : (sortStrs callers.dedup).isEmpty = true
      · rw [if_pos he] at hts
        cases hts
        exact survivorBaseFields_no_svlen info r.id
      · rw [if_neg he] at hts
        cases hts
        exact Dict.not_mem_keys_set _ _ _ _
          (survivorBaseFields_no_svlen info r.id) (by decide)

theorem primaryStep_svlen (d : Dict) (pc : Value) :
    (if pyTruthy pc = true then d.set "PRIMARY_CALLER" pc else d).get? "SVLEN"
      = d.get? "SVLEN" := by
  by_cases hb : pyTruthy pc = true
  · rw [if_pos hb, Dict.get?_set_ne _ _ _ _ (by decide)]
  · rw [if_neg hb]

/-- Through CallerProcessor.process_record, a final integer SVLEN is either
the non-negative caller-normalized value or the untouched base-data
value. -/
theorem processRecord_svlen (k : CallerKind) (info : Dict) (pos : Int)
    (base rd : Dict) (hwf : Dict.WF info)
    (h : processRecord k info pos base = .ok rd) (n : Int)
    (hn : rd.get? "SVLEN" = some (.vint n)) :
    0 ≤ n ∨ base.get? "SVLEN" = some (.vint n) := by
  rw [processRecord] at h
  cases hp : parseInfoFields k info with
  | error e => rw [hp, exceptBind_error] at h; cases h
  | ok parsed =>
    rw [hp, exceptBind_ok] at h
    cases hci : calcCI k info pos with
    | error e => rw [hci, exceptBind_error] at h; cases h
    | ok ci =>
      rw [hci, exceptBind_ok] at h
      cases hsv : baseNormalizeSvlen (info.getV "SVLEN") with
      | error e => rw [hsv, exceptBind_error] at h; cases h
      | ok svOpt =>
        rw [hsv, exceptBind_ok] at h
        simp only [exceptPure, Except.ok.injEq] at h
        subst h
        cases svOpt with
        | some m =>
          left
          rw [primaryStep_svlen] at hn
          have hn' : ((((base.update parsed).set "CIPOS"
              (ciToValue ci.1)).set "CIEND" (ciToValue ci.2)).set "SVLEN"
              (.vint m)).get? "SVLEN" = some (.vint n) := hn
          rw [Dict.get?_set_self] at hn'
          injection hn' with hv
          injection hv with hv
          rw [← hv]
          exact baseNormalizeSvlen_nonneg _ m hsv
        | none =>
          rw [primaryStep_svlen] at hn
          have hn' : (((base.update parsed).set "CIPOS"
              (ciToValue ci.1)).set "CIEND" (ciToValue ci.2)).get? "SVLEN"
              = some (.vint n) := hn
          rw [Dict.get?_set_ne _ _ _ _ (by decide),
            Dict.get?_set_ne _ _ _ _ (by decide)] at hn'
          obtain ⟨hpres, hwfp⟩ := parseInfoFields_preserves k info parsed hp
          cases hio : info.get? "SVLEN" with
          | some raw =>
            have hpar : parsed.get? "SVLEN" = some raw := by
              rw [hpres, dictCopy_get? info hwf, hio]
            rw [Dict.get?_update_of_get? base parsed _ _
              (hwfp (dictCopy_wf info)) hpar] at hn'
            injection hn' with hraw
            rw [Dict.getV, hio, Option.getD_some, hraw] at hsv
            simp [baseNormalizeSvlen, pyInt] at hsv
          | none =>
            have hpar : parsed.get? "SVLEN" = none := by
              rw [hpres, dictCopy_get? info hwf, hio]
            have hnm : "SVLEN" ∉ parsed.keys := by
              intro hm
              have hs := (Dict.get?_isSome_iff_mem parsed "SVLEN").mpr hm
              rw [hpar] at hs
              simp at hs
            rw [Dict.get?_update_of_not_mem base parsed _ hnm] at hn'
            exact Or.inr hn'

theorem pipelineBaseData_svlen (info : Dict) (idx : Nat) (r : Record) :
    ∃ x, (pipelineBaseData info idx r).get? "SVLEN"
      = some (optIntToValue (generalNormalizeSvlen x)) := by
  simp only [pipelineBaseData]
  exact ⟨_, Dict.get?_set_self _ _ _⟩

/-- A BCF record whose raw INFO SVLEN is the non-numeric string abc. -/
def c1Record : Record :=
  { chrom := "chr1", pos := 1000, id := none, ref := "N", alt := [],
    qual := .vnone, filter := [],
    info := [("SVTYPE", .vstr "DEL"), ("SVLEN", .vstr "abc")],
    format := [], calls := [] }

/-- C1 counterexample: processing c1Record succeeds, validation retains the
row, and its SVLEN is the raw string abc, not a non-negative integer: the
caller-stage dict update re-inserts the raw INFO SVLEN, and a failed
caller normalization leaves it in place, while validate_and_filter only
tests for NA. -/
theorem svlen_raw_string_retained :
    (pipelineProcessRecord .bcf [] 0 c1Record).map
      (fun rd => ((validateAndFilter [rd]).1.length, rd.get? "SVLEN"))
      = .ok (1, some (.vstr "abc")) := rfl

/-- C1 amended: validation retains exactly the rows with non-NA SVTYPE and
SVLEN, and whenever a retained SVLEN is an integer it is non-negative; but
a raw SVLEN the caller normalizer rejects (a non-numeric string) survives
as-is. The record hypotheses: a Python INFO dict has distinct keys, and no
FORMAT field is named SVLEN. -/
theorem retained_svlen_shape :
    (∀ (rows : List Dict) (rd : Dict), rd ∈ (validateAndFilter rows).1 →
      rowNotna rd "SVTYPE" = true ∧ rowNotna rd "SVLEN" = true)
    ∧ (∀ (h : HandlerKind) (samples : List String) (idx : Nat) (r : Record)
        (rd : Dict) (n : Int), Dict.WF r.info → "SVLEN" ∉ r.format →
        pipelineProcessRecord h samples idx r = .ok rd →
        rd.get? "SVLEN" = some (.vint n) → 0 ≤ n) := by
  constructor
  · intro rows rd hmem
    rw [validateAndFilter] at hmem
    by_cases he : rows.isEmpty = true
    · rw [if_pos he] at hmem
      rw [List.isEmpty_iff.mp he] at hmem
      cases hmem
    · rw [if_neg he] at hmem
      obtain ⟨h1, h2⟩ := List.mem_filter.mp hmem
      obtain ⟨_, h3⟩ := List.mem_filter.mp h1
      exact ⟨h3, h2⟩
  · intro h samples idx r rd n hwf hfmt hpp hn
    rw [pipelineProcessRecord] at hpp
    cases hcal : getCallerForVariant (handlerExtractPrimaryCaller h r.info r)
      with
    | error e => rw [hcal, exceptBind_error] at hpp; cases hpp
    | ok k =>
      rw [hcal, exceptBind_ok] at hpp
      cases hpr : processRecord k r.info r.pos
          (pipelineBaseData r.info idx r) with
      | error e => rw [hpr, exceptBind_error] at hpp; cases hpp
      | ok rdC =>
        rw [hpr, exceptBind_ok] at hpp
        cases hts : handlerExtractTypeSpecific h r.info r with
        | error e => rw [hts, exceptBind_error] at hpp; cases hpp
        | ok ts =>
          rw [hts, exceptBind_ok] at hpp
          simp only [exceptPure, Except.ok.injEq] at hpp
          subst hpp
          rw [Dict.get?_update_of_not_mem _ _ _
            (handlerSampleFields_no_svlen h r samples hfmt)] at hn
          rw [Dict.get?_set_ne _ _ _ _ (by decide)] at hn
          rw [Dict.get?_update_of_not_mem _ _ _
            (handlerTS_no_svlen h r.info r ts hts)] at hn
          rcases processRecord_svlen k r.info r.pos _ rdC hwf hpr n hn with
            h0 | hbase
          · exact h0
          · obtain ⟨x, hx⟩ := pipelineBaseData_svlen r.info idx r
            rw [hx] at hbase
            injection hbase with hv
            cases hg : generalNormalizeSvlen x with
            | none => rw [hg] at hv; cases hv
            | some m =>
              rw [hg] at hv
              injection hv with hv
              obtain ⟨m0, rfl⟩ := generalNormalizeSvlen_abs x m hg
              rw [← hv]
              exact abs_nonneg m0

/-- Witness for the C1 amended theorem at a retained row with SVTYPE DEL
and SVLEN 5. -/
theorem retained_svlen_shape_witness :
    rowNotna [("SVTYPE", .vstr "DEL"), ("SVLEN", .vint 5)] "SVTYPE" = true
    ∧ rowNotna [("SVTYPE", .vstr "DEL"), ("SVLEN", .vint 5)] "SVLEN"
      = true := by
  have hmem : ([("SVTYPE", Value.vstr "DEL"), ("SVLEN", Value.vint 5)] : Dict)
      ∈ (validateAndFilter
        [[("SVTYPE", .vstr "DEL"), ("SVLEN", .vint 5)]]).1 := by
    have hv : (validateAndFilter
        [[("SVTYPE", Value.vstr "DEL"), ("SVLEN", Value.vint 5)]]).1
        = [[("SVTYPE", Value.vstr "DEL"), ("SVLEN", Value.vint 5)]] := rfl
    rw [hv]
    exact List.mem_cons_self _ _
  exact retained_svlen_shape.1 _ _ hmem

end Varify
